import Mathlib

/-!
# Verification of the PhantomGuard / Norn monitoring engine

A shallow embedding of the core of the monitoring engine (step analyzer,
interception pipeline, session store merge, ingest service normalization and
auth gate), with theorems settling the specification claims against it.

JSON-like Python values are modelled by `Val`; Python dicts become ordered
association lists, preserving insertion order as Python dicts do.
-/

namespace Norn

/-- A JSON-like Python value: the payloads flowing through the engine
(`tool_input` maps, session records, step records). Numbers are modelled by
`Int`; the engine only copies and compares them. -/
inductive Val where
  | null : Val
  | str : String → Val
  | int : Int → Val
  | bool : Bool → Val
  | list : List Val → Val
  | dict : List (String × Val) → Val
deriving Repr

/-- First-match lookup in an ordered dict (Python dict keys are unique, so
first match is the match). -/
def lookup : List (String × Val) → String → Option Val
  | [], _ => none
  | (k1, v1) :: rest, k => if k1 == k then some v1 else lookup rest k

/-- Python `d.get(k, dflt)`. -/
def getD (kvs : List (String × Val)) (k : String) (dflt : Val) : Val :=
  match lookup kvs k with
  | some v => v
  | none => dflt

/-- Python `d.get(k)` (missing key gives `None`). -/
def getOpt (kvs : List (String × Val)) (k : String) : Val :=
  getD kvs k .null

/-- Whether the key is present (Python `k in d`). -/
def containsKey (kvs : List (String × Val)) (k : String) : Bool :=
  (lookup kvs k).isSome

/-- Python dict assignment `d[k] = v`: replace in place, else append. -/
def setKey : List (String × Val) → String → Val → List (String × Val)
  | [], k, v => [(k, v)]
  | (k1, v1) :: rest, k, v =>
    if k1 == k then (k1, v) :: rest else (k1, v1) :: setKey rest k v

/-- Python truthiness `bool(v)`. -/
def truthy : Val → Bool
  | .null => false
  | .str s => !s.isEmpty
  | .int n => n != 0
  | .bool b => b
  | .list l => !l.isEmpty
  | .dict d => !d.isEmpty

/-- `a or b` in Python. -/
def pyOr (a b : Val) : Val := if truthy a then a else b

/-- Does the needle start the haystack (character lists)? -/
def chStarts : List Char → List Char → Bool
  | [], _ => true
  | _ :: _, [] => false
  | a :: as_, b :: bs => a == b && chStarts as_ bs

/-- Does the needle occur anywhere in the haystack (Python `needle in hay`)? -/
def occursIn (needle : List Char) : List Char → Bool
  | [] => needle.isEmpty
  | c :: rest => chStarts needle (c :: rest) || occursIn needle rest

/-- Python `sub in s` on strings. -/
def strIn (needle hay : String) : Bool := occursIn needle.toList hay.toList

/-- ASCII lower-casing of one character (what `str.lower()` does on the
ASCII key names the engine compares). -/
def chLower (c : Char) : Char :=
  if 65 ≤ c.toNat ∧ c.toNat ≤ 90 then Char.ofNat (c.toNat + 32) else c

/-- Python `s.lower()` as a character list. -/
def lowerChars (s : String) : List Char := s.toList.map chLower

/-- `_SENSITIVE_KEYS` from `norn/core/interceptor.py`. -/
def _SENSITIVE_KEYS : List String :=
  ["password", "passwd", "secret", "api_key", "apikey",
   "token", "access_token", "refresh_token", "id_token",
   "private_key", "access_key", "auth_key", "authorization",
   "credential", "credentials", "client_secret"]

/-- `any(s in k.lower() for s in _SENSITIVE_KEYS)`. -/
def isSensitiveKey (k : String) : Bool :=
  _SENSITIVE_KEYS.any fun s => occursIn s.toList (lowerChars k)

/-- The redaction marker used by `_mask_sensitive`. -/
def redactedMarker : String := "***REDACTED***"

/-- `_mask_sensitive` from `norn/core/interceptor.py`: copy of the dict with
values under sensitive keys replaced by the marker; recurses into nested
dicts (and only dicts — other values are copied as they are). -/
def _mask_sensitive : List (String × Val) → List (String × Val)
  | [] => []
  | (k, Val.dict kvs) :: rest =>
    if isSensitiveKey k then (k, Val.str redactedMarker) :: _mask_sensitive rest
    else (k, Val.dict (_mask_sensitive kvs)) :: _mask_sensitive rest
  | (k, v) :: rest =>
    if isSensitiveKey k then (k, Val.str redactedMarker) :: _mask_sensitive rest
    else (k, v) :: _mask_sensitive rest

/-- Descend through nested dicts along a key path. -/
def getPath : Val → List String → Option Val
  | v, [] => some v
  | .dict kvs, k :: p =>
    match lookup kvs k with
    | some v => getPath v p
    | none => none
  | _, _ :: _ => none

/-- How `_mask_sensitive` transforms the value found under key `k`. -/
def maskVal (k : String) (v : Val) : Val :=
  if isSensitiveKey k then .str redactedMarker
  else
    match v with
    | .dict kvs => .dict (_mask_sensitive kvs)
    | w => w

theorem lookup_mask (d : List (String × Val)) (k : String) :
    lookup (_mask_sensitive d) k = (lookup d k).map (maskVal k) := by
  induction d using _mask_sensitive.induct with
  | case1 => simp [_mask_sensitive, lookup]
  | case2 k1 kvs rest h ih =>
    simp only [_mask_sensitive, h, if_true, lookup]
    by_cases hk : k1 == k
    · have : k1 = k := by simpa using hk
      subst this
      simp [hk, maskVal, h]
    · simp [hk, ih]
  | case3 k1 kvs rest h ih1 ih2 =>
    simp only [_mask_sensitive, h, Bool.false_eq_true, if_false, lookup]
    by_cases hk : k1 == k
    · have : k1 = k := by simpa using hk
      subst this
      simp [hk, maskVal, h]
    · simp [hk, ih2]
  | case4 k1 v rest hne h ih =>
    have hmask : _mask_sensitive ((k1, v) :: rest)
        = (k1, Val.str redactedMarker) :: _mask_sensitive rest := by
      cases v <;> simp_all [_mask_sensitive]
    rw [hmask]
    simp only [lookup]
    by_cases hk : k1 == k
    · have : k1 = k := by simpa using hk
      subst this
      simp [hk, maskVal, h]
    · simp [hk, ih]
  | case5 k1 v rest hne h ih =>
    have hmask : _mask_sensitive ((k1, v) :: rest) = (k1, v) :: _mask_sensitive rest := by
      cases v <;> simp_all [_mask_sensitive]
    rw [hmask]
    simp only [lookup]
    have hmv : maskVal k1 v = v := by
      cases v <;> simp_all [maskVal]
    by_cases hk : k1 == k
    · have hkk : k1 = k := by simpa using hk
      simp [hk, ← hkk, hmv]
    · simp [hk, ih]

/-- C3 (counterexample): masking does not descend into lists, so a
`password` value inside a dict nested in a list survives untouched. -/
theorem C3_counterexample :
    _mask_sensitive [("nested", Val.list [Val.dict [("password", Val.str "hunter2")]])]
      = [("nested", Val.list [Val.dict [("password", Val.str "hunter2")]])]
    ∧ isSensitiveKey "password" = true
    ∧ "hunter2" ≠ redactedMarker := by
  have h : isSensitiveKey "nested" = false := by decide
  refine ⟨?_, by decide, by decide⟩
  simp [_mask_sensitive, h]

/-- C3 (amended): for every `tool_input` dict, every value reached through a
path of non-sensitive dict keys and stored under a sensitive key is replaced
by the redaction marker — at arbitrary dict-nesting depth; nesting through
lists is not traversed. -/
theorem C3_mask_redacts_nested_dicts (d : List (String × Val)) (p : List String)
    (k : String) (v : Val)
    (hp : ∀ k1 ∈ p, isSensitiveKey k1 = false)
    (hk : isSensitiveKey k = true)
    (hv : getPath (Val.dict d) (p ++ [k]) = some v) :
    getPath (Val.dict (_mask_sensitive d)) (p ++ [k]) = some (Val.str redactedMarker) := by
  induction p generalizing d with
  | nil =>
    simp only [List.nil_append, getPath] at hv ⊢
    rw [lookup_mask]
    cases hl : lookup d k with
    | none => rw [hl] at hv; simp at hv
    | some u =>
      rw [hl] at hv
      simp only [Option.map_some', getPath]
      simp [maskVal, hk]
  | cons k1 p1 ih =>
    have hk1 : isSensitiveKey k1 = false := hp k1 (by simp)
    simp only [List.cons_append, getPath] at hv ⊢
    rw [lookup_mask]
    cases hl : lookup d k1 with
    | none => rw [hl] at hv; simp at hv
    | some u =>
      rw [hl] at hv
      simp only [Option.map_some']
      cases u with
      | dict kvs =>
        have : maskVal k1 (Val.dict kvs) = Val.dict (_mask_sensitive kvs) := by
          simp [maskVal, hk1]
        rw [this]
        exact ih kvs (fun x hx => hp x (by simp [hx])) hv
      | null => cases p1 <;> simp [getPath, maskVal, hk1] at hv ⊢
      | str s => cases p1 <;> simp [getPath, maskVal, hk1] at hv ⊢
      | int n => cases p1 <;> simp [getPath, maskVal, hk1] at hv ⊢
      | bool b => cases p1 <;> simp [getPath, maskVal, hk1] at hv ⊢
      | list l => cases p1 <;> simp [getPath, maskVal, hk1] at hv ⊢

/-- C3 (witness): a concrete nested credential, `config.api_key`, is redacted. -/
theorem C3_mask_redacts_nested_dicts_witness :
    getPath (Val.dict (_mask_sensitive [("config", Val.dict [("api_key", Val.str "sk-xxx")])]))
      (["config"] ++ ["api_key"]) = some (Val.str redactedMarker) := by
  refine C3_mask_redacts_nested_dicts _ _ _ (Val.str "sk-xxx") ?_ (by decide) ?_
  · intro k1 hk1
    simp only [List.mem_singleton] at hk1
    subst hk1
    decide
  · have h1 : isSensitiveKey "config" = false := by decide
    simp [getPath, lookup]

/-- C10: `_mask_sensitive` is idempotent — re-masking an already-masked
`tool_input` never changes it. -/
theorem C10_mask_idempotent (d : List (String × Val)) :
    _mask_sensitive (_mask_sensitive d) = _mask_sensitive d := by
  induction d using _mask_sensitive.induct with
  | case1 => simp [_mask_sensitive]
  | case2 k kvs rest h ih => simp [_mask_sensitive, h, ih]
  | case3 k kvs rest h ih1 ih2 => simp [_mask_sensitive, h, ih1, ih2]
  | case4 k v rest hne h ih => simp_all [_mask_sensitive]
  | case5 k v rest hne h ih => cases v <;> simp_all [_mask_sensitive]

/-! ## Enumerations from `norn/models/schemas.py` -/

/-- `IssueType`. -/
inductive IssueType where
  | INFINITE_LOOP
  | TASK_DRIFT
  | INEFFICIENCY
  | INCOMPLETE
  | TOOL_MISUSE
  | ERROR_HANDLING
  | DATA_EXFILTRATION
  | PROMPT_INJECTION
  | UNAUTHORIZED_ACCESS
  | SUSPICIOUS_BEHAVIOR
  | CREDENTIAL_LEAK
  | SECURITY_BYPASS
  | MISSING_CONFIG
deriving DecidableEq, Repr

/-- `StepStatus`. -/
inductive StepStatus where
  | SUCCESS
  | FAILED
  | IRRELEVANT
  | REDUNDANT
  | BLOCKED
deriving DecidableEq, Repr

/-- `SessionQuality`. -/
inductive SessionQuality where
  | EXCELLENT
  | GOOD
  | POOR
  | FAILED
  | STUCK
  | PENDING
deriving DecidableEq, Repr

/-- `GuardMode`. -/
inductive GuardMode where
  | monitor
  | intervene
  | enforce
deriving DecidableEq, Repr

/-- `QualityIssue` (the fields the engine inspects; ids and timestamps are
generated externally and never compared). -/
structure QualityIssue where
  issue_type : IssueType
  severity : Nat
  description : String
  affected_steps : List String
  recommendation : String
  auto_resolved : Bool
deriving DecidableEq, Repr

/-! ## Python `repr`/`str` rendering, used for canonical call signatures -/

/-- A single-quote character (Python quotes `repr` strings with it). -/
def sq : String := String.singleton (Char.ofNat 39)

/-- Comma join. -/
def joinComma : List String → String
  | [] => ""
  | [s] => s
  | s :: y :: rest => s ++ ", " ++ joinComma (y :: rest)

mutual

/-- Python `repr` of a value (string escaping is not modelled; the engine
only ever compares these renderings for equality). -/
def pyRepr : Val → String
  | .null => "None"
  | .str s => sq ++ s ++ sq
  | .int n => toString n
  | .bool true => "True"
  | .bool false => "False"
  | .list xs => "[" ++ pyReprList xs ++ "]"
  | .dict kvs => "\x7b" ++ pyReprKVs kvs ++ "\x7d"

/-- Comma-joined `repr`s of list elements. -/
def pyReprList : List Val → String
  | [] => ""
  | [x] => pyRepr x
  | x :: y :: rest => pyRepr x ++ ", " ++ pyReprList (y :: rest)

/-- Comma-joined `repr`s of dict items. -/
def pyReprKVs : List (String × Val) → String
  | [] => ""
  | [(k, v)] => sq ++ k ++ sq ++ ": " ++ pyRepr v
  | (k, v) :: y :: rest => sq ++ k ++ sq ++ ": " ++ pyRepr v ++ ", " ++ pyReprKVs (y :: rest)

end

/-- Python `str` of a value. -/
def pyStr : Val → String
  | .str s => s
  | v => pyRepr v

/-- Insertion into a key-sorted item list (Python `sorted` on `(key, value)`
tuples orders by the unique keys). -/
def insertSorted (x : String × Val) : List (String × Val) → List (String × Val)
  | [] => [x]
  | y :: ys => if decide (y.1 < x.1) then y :: insertSorted x ys else x :: y :: ys

/-- Python `sorted(d.items())`. -/
def sortItems : List (String × Val) → List (String × Val)
  | [] => []
  | x :: xs => insertSorted x (sortItems xs)

/-- Python `str` of a list of `(key, value)` tuples. -/
def pyStrItems (l : List (String × Val)) : String :=
  "[" ++ joinComma (l.map fun kv => "(" ++ sq ++ kv.1 ++ sq ++ ", " ++ pyRepr kv.2 ++ ")") ++ "]"

/-- `StepAnalyzer._hash_input`: `f"{tool_name}:{str(sorted(tool_input.items()))}"`. -/
def _hash_input (tool_name : String) (tool_input : List (String × Val)) : String :=
  tool_name ++ ":" ++ pyStrItems (sortItems tool_input)

/-- The step signature pushed onto the recent deque:
`(tool_name, str(sorted(tool_input.items())))`. -/
def stepSig (tool_name : String) (tool_input : List (String × Val)) : String × String :=
  (tool_name, pyStrItems (sortItems tool_input))

/-! ## Step Analyzer (`norn/core/step_analyzer.py`) -/

/-- Constructor parameters of `StepAnalyzer`. The interception pipeline
passes `loop_window=5, loop_threshold=3, max_same_tool=10` by default. -/
structure AnalyzerConfig where
  loop_window : Nat
  loop_threshold : Nat
  max_same_tool : Nat
deriving Repr

/-- The per-session mutable state of `StepAnalyzer`: the bounded deque of
recent signatures, the per-tool counter, and the set of seen call hashes. -/
structure AnalyzerState where
  recent : List (String × String)
  toolCounter : List (String × Nat)
  inputHashes : List String
deriving Repr

/-- `StepAnalyzer.reset()` / a freshly constructed analyzer. -/
def initAnalyzer : AnalyzerState := ⟨[], [], []⟩

/-- Current count for a tool in the `Counter`. -/
def countOf (c : List (String × Nat)) (t : String) : Nat :=
  match c.find? (fun p => p.1 == t) with
  | some p => p.2
  | none => 0

/-- `Counter` increment. -/
def bump : List (String × Nat) → String → List (String × Nat)
  | [], t => [(t, 1)]
  | (k, n) :: rest, t =>
    if k == t then (k, n + 1) :: rest else (k, n) :: bump rest t

/-- Append to a `deque(maxlen=w)`: drop from the left beyond capacity. -/
def dequePush (w : Nat) (l : List (String × String)) (x : String × String) :
    List (String × String) :=
  let l2 := l ++ [x]
  if w < l2.length then l2.drop (l2.length - w) else l2

/-- `Counter(recent).most_common(1)[0][1]`: highest multiplicity in the deque. -/
def mostCommonCount (l : List (String × String)) : Nat :=
  l.foldl (fun m s => max m (l.count s)) 0

/-- `_SSL_BYPASS_KEYS`. -/
def _SSL_BYPASS_KEYS : List String :=
  ["verify_ssl", "verify", "ssl_verify", "check_ssl", "ssl_check"]

/-- `_SHELL_KEYS`. -/
def _SHELL_KEYS : List String := ["shell", "use_shell", "shell_mode"]

/-- `_CMD_KEYS`. -/
def _CMD_KEYS : List String :=
  ["cmd", "command", "args", "shell_cmd", "exec", "query", "input"]

/-- `_SHELL_METACHAR`. -/
def _SHELL_METACHAR : List String :=
  ["&&", "||", ";", "|", "`", "$(", ">", "<", "../", "..\\"]

/-- `_CRED_MARKERS`. -/
def _CRED_MARKERS : List String :=
  ["password", "passwd", "secret", "api_key", "token",
   "private_key", "access_key", "auth_key"]

/-- Python `tool_input.get(k) is False`. -/
def isFalseLit : Option Val → Bool
  | some (.bool false) => true
  | _ => false

/-- Python `tool_input.get(k) is True`. -/
def isTrueLit : Option Val → Bool
  | some (.bool true) => true
  | _ => false

/-- `"step_N"` tags used in `affected_steps`. -/
def stepTag (n : Nat) : String := "step_" ++ toString n

/-- Result of `StepAnalyzer.analyze_step`, with the updated analyzer state. -/
structure AnalyzeResult where
  status : StepStatus
  issues : List QualityIssue
  state : AnalyzerState
deriving Repr

/-- `StepAnalyzer.analyze_step`, rule for rule in source order: SSL bypass,
`shell=True`, command metacharacters, credential field names, exact
duplicate, per-tool overuse, evasion loop, pattern repetition. -/
def analyze_step (cfg : AnalyzerConfig) (st : AnalyzerState) (tool_name : String)
    (tool_input : List (String × Val)) (step_number : Nat) : AnalyzeResult :=
  let issues0 : List QualityIssue :=
    match _SSL_BYPASS_KEYS.find? (fun k => isFalseLit (lookup tool_input k)) with
    | some _ => [⟨.SECURITY_BYPASS, 8, "SSL certificate verification is disabled",
        [stepTag step_number], "Remove the flag or set it to True", false⟩]
    | none => []
  let issues1 := issues0 ++
    (match _SHELL_KEYS.find? (fun k => isTrueLit (lookup tool_input k)) with
     | some _ => [⟨.SECURITY_BYPASS, 9, "shell injection risk",
         [stepTag step_number], "Use list-form subprocess calls", false⟩]
     | none => [])
  let issues2 := issues1 ++
    (match _CMD_KEYS.find? (fun k =>
        match lookup tool_input k with
        | some (.str s) => _SHELL_METACHAR.any (fun m => strIn m s)
        | _ => false) with
     | some _ => [⟨.SECURITY_BYPASS, 8, "shell metacharacter detected in input",
         [stepTag step_number], "Sanitize command inputs", false⟩]
     | none => [])
  let issues3 := issues2 ++
    (match tool_input.find? (fun kv =>
        (match kv.2 with | .str _ => true | _ => false)
          && _CRED_MARKERS.any (fun m => occursIn m.toList (lowerChars kv.1))) with
     | some _ => [⟨.SECURITY_BYPASS, 7, "potential credential passed as tool argument",
         [stepTag step_number], "Avoid passing credentials as tool arguments", false⟩]
     | none => [])
  let input_hash := _hash_input tool_name tool_input
  let isDup := st.inputHashes.contains input_hash
  let status := if isDup then StepStatus.REDUNDANT else StepStatus.SUCCESS
  let issues4 := issues3 ++
    (if isDup then
       [⟨.INEFFICIENCY, 3, "duplicate call with same inputs", [],
         "Avoid calling same tool with same inputs multiple times", false⟩]
     else [])
  let hashes2 := if isDup then st.inputHashes else st.inputHashes ++ [input_hash]
  let counter2 := bump st.toolCounter tool_name
  let issues5 := issues4 ++
    (if cfg.max_same_tool ≤ countOf counter2 tool_name then
       [⟨.INFINITE_LOOP, 8, "tool called many times, possible infinite loop", [],
         "Agent may be stuck in a loop, consider intervention", false⟩]
     else [])
  let recent_same_tool := st.recent.countP (fun s => s.1 == tool_name)
  let issues6 := issues5 ++
    (if 3 ≤ recent_same_tool then
       [⟨.SUSPICIOUS_BEHAVIOR, 7, "possible loop evasion pattern with varying inputs",
         [stepTag step_number], "Agent may be stuck in a disguised loop", false⟩]
     else [])
  let recent2 := dequePush cfg.loop_window st.recent (stepSig tool_name tool_input)
  let issues7 := issues6 ++
    (if cfg.loop_window ≤ recent2.length ∧ cfg.loop_threshold ≤ mostCommonCount recent2 then
       [⟨.INFINITE_LOOP, 9, "repeating pattern detected in recent steps", [],
         "Agent is stuck in a loop, intervention recommended", false⟩]
     else [])
  ⟨status, issues7, ⟨recent2, counter2, hashes2⟩⟩

/-- One tool call as seen by the analyzer. -/
structure ToolCall where
  tool_name : String
  tool_input : List (String × Val)
deriving Repr

/-- The signature of a call. -/
def sigOf (c : ToolCall) : String × String := stepSig c.tool_name c.tool_input

/-- Run the analyzer over consecutive calls, numbering steps `n+1, n+2, …`;
collect each step's result. -/
def analyzeRun (cfg : AnalyzerConfig) : AnalyzerState → Nat → List ToolCall → List AnalyzeResult
  | _, _, [] => []
  | st, n, c :: rest =>
    let r := analyze_step cfg st c.tool_name c.tool_input (n + 1)
    r :: analyzeRun cfg r.state (n + 1) rest

/-- Analyzer state after a run. -/
def runState (cfg : AnalyzerConfig) : AnalyzerState → Nat → List ToolCall → AnalyzerState
  | st, _, [] => st
  | st, n, c :: rest =>
    runState cfg (analyze_step cfg st c.tool_name c.tool_input (n + 1)).state (n + 1) rest

/-- The last `w` entries of a list. -/
def lastN (w : Nat) (l : List α) : List α := l.drop (l.length - w)

theorem dequePush_lastN (w : Nat) (l : List (String × String)) (x : String × String) :
    dequePush w (lastN w l) x = lastN w (l ++ [x]) := by
  unfold dequePush lastN
  by_cases hw : w ≤ l.length
  · have hm : (l.drop (l.length - w)).length = w := by
      simp [List.length_drop]
      omega
    rcases Nat.eq_zero_or_pos w with hw0 | hw1
    · subst hw0
      have h1 : l.drop l.length = ([] : List (String × String)) := by
        simp [List.drop_length]
      simp [h1, List.length_append]
    · have hcond : w < (l.drop (l.length - w) ++ [x]).length := by
        simp [List.length_append, hm]
      rw [if_pos hcond]
      have hlen2 : (l.drop (l.length - w) ++ [x]).length - w = 1 := by
        simp [List.length_append, hm]
      rw [hlen2]
      have h1le : 1 ≤ (l.drop (l.length - w)).length := by omega
      rw [List.drop_append_of_le_length h1le, List.drop_drop]
      have he : l.length - w + 1 = l.length + 1 - w := by omega
      have hle2 : l.length + 1 - w ≤ l.length := by omega
      rw [he]
      have hra : (l ++ [x]).length - w = l.length + 1 - w := by
        simp [List.length_append]
      rw [hra, List.drop_append_of_le_length hle2]
  · push_neg at hw
    have hd0 : l.length - w = 0 := by omega
    rw [hd0, List.drop_zero]
    have hcond : ¬ w < (l ++ [x]).length := by
      simp [List.length_append]
      omega
    rw [if_neg hcond]
    have hd1 : (l ++ [x]).length - w = 0 := by
      simp [List.length_append]
      omega
    rw [hd1, List.drop_zero]

theorem runState_recent (cfg : AnalyzerConfig) :
    ∀ (cs pre : List ToolCall) (st : AnalyzerState) (n : Nat),
      st.recent = lastN cfg.loop_window (pre.map sigOf) →
      (runState cfg st n cs).recent = lastN cfg.loop_window ((pre ++ cs).map sigOf) := by
  intro cs
  induction cs with
  | nil => intro pre st n h; simpa [runState] using h
  | cons c rest ih =>
    intro pre st n h
    have hstep : (analyze_step cfg st c.tool_name c.tool_input (n + 1)).state.recent
        = lastN cfg.loop_window ((pre ++ [c]).map sigOf) := by
      simp only [analyze_step]
      rw [h]
      have := dequePush_lastN cfg.loop_window (pre.map sigOf) (sigOf c)
      simpa [sigOf] using this
    have := ih (pre ++ [c]) _ (n + 1) hstep
    simpa [runState] using this

theorem le_foldl_max {α : Type} (f : α → Nat) :
    ∀ (l : List α) (a : Nat), a ≤ l.foldl (fun m s => max m (f s)) a := by
  intro l
  induction l with
  | nil => intro a; simp
  | cons x xs ih =>
    intro a
    calc a ≤ max a (f x) := Nat.le_max_left _ _
    _ ≤ xs.foldl (fun m s => max m (f s)) (max a (f x)) := ih _

theorem mem_le_foldl_max {α : Type} (f : α → Nat) :
    ∀ (l : List α) (a : Nat) (x : α), x ∈ l → f x ≤ l.foldl (fun m s => max m (f s)) a := by
  intro l
  induction l with
  | nil => intro a x hx; cases hx
  | cons y ys ih =>
    intro a x hx
    rcases List.mem_cons.mp hx with h | h
    · subst h
      calc f x ≤ max a (f x) := Nat.le_max_right _ _
      _ ≤ ys.foldl (fun m s => max m (f s)) (max a (f x)) := le_foldl_max f ys _
    · exact ih _ x h

theorem count_le_mostCommonCount (l : List (String × String)) (s : String × String)
    (h : s ∈ l) : l.count s ≤ mostCommonCount l :=
  mem_le_foldl_max (fun t => l.count t) l 0 s h

theorem analyze_step_pattern_mem (cfg : AnalyzerConfig) (st : AnalyzerState)
    (tool : String) (input : List (String × Val)) (n : Nat)
    (h1 : cfg.loop_window ≤ (dequePush cfg.loop_window st.recent (stepSig tool input)).length)
    (h2 : cfg.loop_threshold ≤ mostCommonCount (dequePush cfg.loop_window st.recent (stepSig tool input))) :
    ∃ i ∈ (analyze_step cfg st tool input n).issues,
      i.issue_type = IssueType.INFINITE_LOOP ∧ i.severity = 9 := by
  refine ⟨⟨.INFINITE_LOOP, 9, "repeating pattern detected in recent steps", [],
    "Agent is stuck in a loop, intervention recommended", false⟩, ?_, rfl, rfl⟩
  simp only [analyze_step]
  rw [if_pos (And.intro h1 h2)]
  simp [List.mem_append]

theorem analyze_step_evasion_mem (cfg : AnalyzerConfig) (st : AnalyzerState)
    (tool : String) (input : List (String × Val)) (n : Nat)
    (h : 3 ≤ st.recent.countP (fun s => s.1 == tool)) :
    ∃ i ∈ (analyze_step cfg st tool input n).issues,
      i.issue_type = IssueType.SUSPICIOUS_BEHAVIOR ∧ i.severity = 7 := by
  refine ⟨⟨.SUSPICIOUS_BEHAVIOR, 7, "possible loop evasion pattern with varying inputs",
    [stepTag n], "Agent may be stuck in a disguised loop", false⟩, ?_, rfl, rfl⟩
  simp only [analyze_step]
  rw [if_pos h]
  simp [List.mem_append]

/-- C5 (counterexample): three identical calls make one signature occur
3 ≥ `loop_threshold` times within the last `loop_window = 5` calls, yet the
analyzer emits no `INFINITE_LOOP` issue at any of the three steps — the
pattern rule only fires once the recent window is full. -/
theorem C5_counterexample :
    3 ≤ (lastN 5 (List.map sigOf [⟨"read", []⟩, ⟨"read", []⟩, ⟨"read", []⟩])).count
        (sigOf ⟨"read", []⟩)
    ∧ (analyzeRun ⟨5, 3, 10⟩ initAnalyzer 0 [⟨"read", []⟩, ⟨"read", []⟩, ⟨"read", []⟩]).map
        (fun r => r.issues.countP (fun i => i.issue_type == IssueType.INFINITE_LOOP))
      = [0, 0, 0] := by
  decide

/-- C5 (amended): over any call sequence, (a) at a step where the total
number of calls has reached `loop_window` and some signature occurs
≥ `loop_threshold` times within the window of the last `loop_window` calls,
the analyzer emits an `INFINITE_LOOP` issue of severity 9 at that step; and
(b) at a step whose `tool_name` already occurred ≥ 3 times among the
previous `loop_window` calls, it emits a `SUSPICIOUS_BEHAVIOR` issue of
severity 7 at that step (for scenario S3 this is step 4, not step 3). -/
theorem C5_loop_detector (cfg : AnalyzerConfig) (cs : List ToolCall) (c : ToolCall)
    (m n : Nat) :
    (cfg.loop_window ≤ cs.length + 1 →
      ∀ σ : String × String,
        cfg.loop_threshold ≤ (lastN cfg.loop_window ((cs ++ [c]).map sigOf)).count σ →
        ∃ i ∈ (analyze_step cfg (runState cfg initAnalyzer m cs)
            c.tool_name c.tool_input n).issues,
          i.issue_type = IssueType.INFINITE_LOOP ∧ i.severity = 9)
    ∧ (3 ≤ (lastN cfg.loop_window (cs.map sigOf)).countP (fun s => s.1 == c.tool_name) →
        ∃ i ∈ (analyze_step cfg (runState cfg initAnalyzer m cs)
            c.tool_name c.tool_input n).issues,
          i.issue_type = IssueType.SUSPICIOUS_BEHAVIOR ∧ i.severity = 7) := by
  have hrec : (runState cfg initAnalyzer m cs).recent = lastN cfg.loop_window (cs.map sigOf) := by
    have hbase : initAnalyzer.recent = lastN cfg.loop_window (([] : List ToolCall).map sigOf) := by
      simp [initAnalyzer, lastN]
    simpa using runState_recent cfg cs [] initAnalyzer m hbase
  have hpush : dequePush cfg.loop_window (runState cfg initAnalyzer m cs).recent
      (stepSig c.tool_name c.tool_input)
      = lastN cfg.loop_window ((cs ++ [c]).map sigOf) := by
    rw [hrec]
    have := dequePush_lastN cfg.loop_window (cs.map sigOf) (sigOf c)
    simpa [sigOf] using this
  constructor
  · intro hW σ hσ
    apply analyze_step_pattern_mem
    · rw [hpush]
      simp only [lastN, List.length_drop, List.length_map, List.length_append,
        List.length_singleton]
      omega
    · rw [hpush]
      rcases Nat.eq_zero_or_pos cfg.loop_threshold with h0 | hpos
      · simp [h0]
      · have hcnt : 0 < (lastN cfg.loop_window ((cs ++ [c]).map sigOf)).count σ :=
          lt_of_lt_of_le hpos hσ
        have hmem : σ ∈ lastN cfg.loop_window ((cs ++ [c]).map sigOf) :=
          List.count_pos_iff.mp hcnt
        exact le_trans hσ (count_le_mostCommonCount _ _ hmem)
  · intro h3
    apply analyze_step_evasion_mem
    rw [hrec]
    exact h3

/-- C5 (witness): with the default configuration, five identical `wait`
calls trigger the severity-9 `INFINITE_LOOP` issue at step 5, and the
severity-7 `SUSPICIOUS_BEHAVIOR` evasion issue is also emitted there. -/
theorem C5_loop_detector_witness :
    (∃ i ∈ (analyze_step ⟨5, 3, 10⟩
        (runState ⟨5, 3, 10⟩ initAnalyzer 0 [⟨"wait", []⟩, ⟨"wait", []⟩, ⟨"wait", []⟩, ⟨"wait", []⟩])
        "wait" [] 5).issues,
      i.issue_type = IssueType.INFINITE_LOOP ∧ i.severity = 9)
    ∧ (∃ i ∈ (analyze_step ⟨5, 3, 10⟩
        (runState ⟨5, 3, 10⟩ initAnalyzer 0 [⟨"wait", []⟩, ⟨"wait", []⟩, ⟨"wait", []⟩, ⟨"wait", []⟩])
        "wait" [] 5).issues,
      i.issue_type = IssueType.SUSPICIOUS_BEHAVIOR ∧ i.severity = 7) := by
  have h := C5_loop_detector ⟨5, 3, 10⟩
    [⟨"wait", []⟩, ⟨"wait", []⟩, ⟨"wait", []⟩, ⟨"wait", []⟩] ⟨"wait", []⟩ 0 5
  exact ⟨h.1 (by decide) (sigOf ⟨"wait", []⟩) (by decide), h.2 (by decide)⟩

/-! ## Deterministic overrides in `NornHook._finalize_report` -/

/-- Membership in `_HARD_SECURITY_TYPES`. -/
def isHardSecurityType (t : IssueType) : Bool :=
  t == .SECURITY_BYPASS || t == .PROMPT_INJECTION || t == .DATA_EXFILTRATION

/-- The deterministic override step of `NornHook._finalize_report`
(`norn/core/interceptor.py`): given the session issues, the
`loop_detected` flag, and the judge-produced quality and security score,
compute the final quality and security score. -/
def finalize_overrides (issues : List QualityIssue) (loop_detected : Bool)
    (quality : SessionQuality) (security_score : Option Int) :
    SessionQuality × Option Int :=
  let has_security_bypass := issues.any fun i =>
    isHardSecurityType i.issue_type && decide (8 ≤ i.severity)
  let has_loop_issue := issues.any fun i =>
    i.issue_type == .INFINITE_LOOP && decide (8 ≤ i.severity)
  let q1 :=
    if loop_detected || has_loop_issue then SessionQuality.STUCK
    else if has_security_bypass then SessionQuality.FAILED
    else quality
  let sec1 :=
    if has_security_bypass then
      let has_critical := issues.any fun i =>
        (i.issue_type == .PROMPT_INJECTION || i.issue_type == .DATA_EXFILTRATION)
          && decide (8 ≤ i.severity)
      let cap : Int := if has_critical then 20 else 40
      match security_score with
      | none => some cap
      | some s => if cap < s then some cap else some s
    else security_score
  (q1, sec1)

/-- C4 (counterexample): a session whose issues hold both an
`INFINITE_LOOP` of severity 9 and a `SECURITY_BYPASS` of severity 8
finalizes with `overall_quality = STUCK`, not `FAILED` — the loop override
wins — while the security cap of 40 still applies. -/
theorem C4_counterexample :
    (finalize_overrides
        [⟨.INFINITE_LOOP, 9, "loop", [], "", false⟩,
         ⟨.SECURITY_BYPASS, 8, "ssl off", [], "", false⟩]
        false SessionQuality.GOOD (some 100)).1 = SessionQuality.STUCK
    ∧ SessionQuality.STUCK ≠ SessionQuality.FAILED
    ∧ (finalize_overrides
        [⟨.INFINITE_LOOP, 9, "loop", [], "", false⟩,
         ⟨.SECURITY_BYPASS, 8, "ssl off", [], "", false⟩]
        false SessionQuality.GOOD (some 100)).2 = some 40 := by
  decide

/-- C4 (amended): after finalization, (a) an `INFINITE_LOOP` issue of
severity ≥ 8 or the `loop_detected` flag forces `overall_quality = STUCK`
regardless of judge output; (b) a hard-security issue (`SECURITY_BYPASS`,
`PROMPT_INJECTION` or `DATA_EXFILTRATION`) of severity ≥ 8 forces
`overall_quality = FAILED` only when no loop override applies; (c) whenever
such a hard-security issue is present — also when a loop issue coexists —
the final `security_score` is some value ≤ 40, and ≤ 20 when the issue is
`PROMPT_INJECTION` or `DATA_EXFILTRATION`. -/
theorem C4_finalize_overrides (issues : List QualityIssue) (ld : Bool)
    (q : SessionQuality) (sec : Option Int) :
    ((∃ i ∈ issues, i.issue_type = IssueType.INFINITE_LOOP ∧ 8 ≤ i.severity) ∨ ld = true →
      (finalize_overrides issues ld q sec).1 = SessionQuality.STUCK)
    ∧ ((∃ i ∈ issues, isHardSecurityType i.issue_type = true ∧ 8 ≤ i.severity) →
        ¬ (∃ i ∈ issues, i.issue_type = IssueType.INFINITE_LOOP ∧ 8 ≤ i.severity) →
        ld = false →
        (finalize_overrides issues ld q sec).1 = SessionQuality.FAILED)
    ∧ ((∃ i ∈ issues, isHardSecurityType i.issue_type = true ∧ 8 ≤ i.severity) →
        ∃ s : Int, (finalize_overrides issues ld q sec).2 = some s ∧ s ≤ 40)
    ∧ ((∃ i ∈ issues,
          (i.issue_type = IssueType.PROMPT_INJECTION
            ∨ i.issue_type = IssueType.DATA_EXFILTRATION) ∧ 8 ≤ i.severity) →
        ∃ s : Int, (finalize_overrides issues ld q sec).2 = some s ∧ s ≤ 20) := by
  have hloop_iff : (issues.any fun i =>
      i.issue_type == IssueType.INFINITE_LOOP && decide (8 ≤ i.severity)) = true
      ↔ ∃ i ∈ issues, i.issue_type = IssueType.INFINITE_LOOP ∧ 8 ≤ i.severity := by
    simp [List.any_eq_true]
  have hsec_iff : (issues.any fun i =>
      isHardSecurityType i.issue_type && decide (8 ≤ i.severity)) = true
      ↔ ∃ i ∈ issues, isHardSecurityType i.issue_type = true ∧ 8 ≤ i.severity := by
    simp [List.any_eq_true]
  have hcrit_iff : (issues.any fun i =>
      (i.issue_type == IssueType.PROMPT_INJECTION
        || i.issue_type == IssueType.DATA_EXFILTRATION) && decide (8 ≤ i.severity)) = true
      ↔ ∃ i ∈ issues,
          (i.issue_type = IssueType.PROMPT_INJECTION
            ∨ i.issue_type = IssueType.DATA_EXFILTRATION) ∧ 8 ≤ i.severity := by
    simp [List.any_eq_true]
  refine ⟨?_, ?_, ?_, ?_⟩
  · rintro (hex | hld)
    · have hb := hloop_iff.mpr hex
      simp [finalize_overrides, hb]
    · simp [finalize_overrides, hld]
  · intro hsec hnoloop hld
    have hb := hsec_iff.mpr hsec
    have hl : (issues.any fun i =>
        i.issue_type == IssueType.INFINITE_LOOP && decide (8 ≤ i.severity)) = false := by
      rcases hb2 : issues.any fun i =>
          i.issue_type == IssueType.INFINITE_LOOP && decide (8 ≤ i.severity)
      · rfl
      · exact absurd (hloop_iff.mp hb2) hnoloop
    simp [finalize_overrides, hb, hl, hld]
  · intro hsec
    have hb := hsec_iff.mpr hsec
    rcases hc : issues.any fun i =>
        (i.issue_type == IssueType.PROMPT_INJECTION
          || i.issue_type == IssueType.DATA_EXFILTRATION) && decide (8 ≤ i.severity) with _ | _
    · cases sec with
      | none => exact ⟨40, by simp [finalize_overrides, hb, hc], by omega⟩
      | some s =>
        by_cases hlt : (40 : Int) < s
        · exact ⟨40, by simp [finalize_overrides, hb, hc, hlt], by omega⟩
        · exact ⟨s, by simp [finalize_overrides, hb, hc, hlt], by omega⟩
    · cases sec with
      | none => exact ⟨20, by simp [finalize_overrides, hb, hc], by omega⟩
      | some s =>
        by_cases hlt : (20 : Int) < s
        · exact ⟨20, by simp [finalize_overrides, hb, hc, hlt], by omega⟩
        · exact ⟨s, by simp [finalize_overrides, hb, hc, hlt], by omega⟩
  · intro hcrit
    have hc := hcrit_iff.mpr hcrit
    have hb : (issues.any fun i =>
        isHardSecurityType i.issue_type && decide (8 ≤ i.severity)) = true := by
      rcases hcrit with ⟨i, hi, hty, hsev⟩
      refine hsec_iff.mpr ⟨i, hi, ?_, hsev⟩
      rcases hty with h | h <;> simp [isHardSecurityType, h]
    cases sec with
    | none => exact ⟨20, by simp [finalize_overrides, hb, hc], by omega⟩
    | some s =>
      by_cases hlt : (20 : Int) < s
      · exact ⟨20, by simp [finalize_overrides, hb, hc, hlt], by omega⟩
      · exact ⟨s, by simp [finalize_overrides, hb, hc, hlt], by omega⟩

/-- C4 (witness): a lone severity-8 `SECURITY_BYPASS` issue forces
quality `FAILED` and caps the security score at 40; a severity-9
`PROMPT_INJECTION` caps it at 20; a loop issue forces `STUCK`. -/
theorem C4_finalize_overrides_witness :
    (finalize_overrides [⟨.INFINITE_LOOP, 9, "loop", [], "", false⟩] true
        SessionQuality.GOOD none).1 = SessionQuality.STUCK
    ∧ (finalize_overrides [⟨.SECURITY_BYPASS, 8, "ssl", [], "", false⟩] false
        SessionQuality.GOOD (some 90)).1 = SessionQuality.FAILED
    ∧ (∃ s : Int, (finalize_overrides [⟨.SECURITY_BYPASS, 8, "ssl", [], "", false⟩] false
        SessionQuality.GOOD (some 90)).2 = some s ∧ s ≤ 40)
    ∧ (∃ s : Int, (finalize_overrides [⟨.PROMPT_INJECTION, 9, "inj", [], "", false⟩] false
        SessionQuality.GOOD (some 90)).2 = some s ∧ s ≤ 20) := by
  refine ⟨?_, ?_, ?_, ?_⟩
  · exact (C4_finalize_overrides [⟨.INFINITE_LOOP, 9, "loop", [], "", false⟩] true
      SessionQuality.GOOD none).1 (Or.inr rfl)
  · exact (C4_finalize_overrides [⟨.SECURITY_BYPASS, 8, "ssl", [], "", false⟩] false
      SessionQuality.GOOD (some 90)).2.1 (by simp [isHardSecurityType]) (by simp) rfl
  · exact (C4_finalize_overrides [⟨.SECURITY_BYPASS, 8, "ssl", [], "", false⟩] false
      SessionQuality.GOOD (some 90)).2.2.1 (by simp [isHardSecurityType])
  · exact (C4_finalize_overrides [⟨.PROMPT_INJECTION, 9, "inj", [], "", false⟩] false
      SessionQuality.GOOD (some 90)).2.2.2 (by simp)

/-! ## Tool-call interception (`NornHook._on_before_tool` / `_on_after_tool`) -/

/-- The per-session pipeline state touched by tool-call interception. -/
structure HookState where
  step_counter : Nat
  issues : List QualityIssue
  loop_detected : Bool
  security_breach : Bool
  analyzer : AnalyzerState
deriving Repr

/-- Pipeline state at `SessionStart` (counters and lists reset). -/
def initHookState : HookState := ⟨0, [], false, false, initAnalyzer⟩

/-- The issue-recording loop inside `_on_before_tool`: append each issue,
set `loop_detected` on an `INFINITE_LOOP` of severity ≥ 8, and on a
`SECURITY_BYPASS` of severity ≥ 7 mark the breach and — in `intervene`
mode — cancel the tool call and return at once (dropping later issues).
Returns the appended issues, the flag contributions, and the cancel
reason. -/
def recordIssues (mode : GuardMode) :
    List QualityIssue → List QualityIssue × Bool × Bool × Option String
  | [] => ([], false, false, none)
  | i :: rest =>
    let isLoop := i.issue_type == .INFINITE_LOOP && decide (8 ≤ i.severity)
    let isSec := i.issue_type == .SECURITY_BYPASS && decide (7 ≤ i.severity)
    if isSec && (mode == GuardMode.intervene) then
      ([i], isLoop, true, some ("Loop detected: " ++ i.description))
    else
      let r := recordIssues mode rest
      (i :: r.1, isLoop || r.2.1, isSec || r.2.2.1, r.2.2.2)

/-- Result of `_on_before_tool`: the updated state and the cancel reason
(`event.cancel_tool` / `event.cancel_reason`) if the call was cancelled. -/
structure BeforeResult where
  state : HookState
  cancel : Option String
deriving Repr

/-- `NornHook._on_before_tool`: bump the step counter, run the analyzer,
record issues (with the intervene-on-`SECURITY_BYPASS` early return), then
cancel when the counter exceeds `max_steps` in `intervene` mode. -/
def _on_before_tool (mode : GuardMode) (max_steps : Nat) (cfg : AnalyzerConfig)
    (st : HookState) (tool_name : String) (tool_input : List (String × Val)) :
    BeforeResult :=
  let counter := st.step_counter + 1
  let ar := analyze_step cfg st.analyzer tool_name tool_input counter
  let rec_ := recordIssues mode ar.issues
  let st2 : HookState :=
    ⟨counter, st.issues ++ rec_.1, st.loop_detected || rec_.2.1,
      st.security_breach || rec_.2.2.1, ar.state⟩
  match rec_.2.2.2 with
  | some reason => ⟨st2, some reason⟩
  | none =>
    if max_steps < counter then
      if mode == GuardMode.intervene then ⟨st2, some "Exceeded maximum steps"⟩
      else ⟨st2, none⟩
    else ⟨st2, none⟩

/-- Run `_on_before_tool` over consecutive calls, collecting each cancel
decision. -/
def runBeforeTools (mode : GuardMode) (max_steps : Nat) (cfg : AnalyzerConfig) :
    HookState → List ToolCall → HookState × List (Option String)
  | st, [] => (st, [])
  | st, c :: rest =>
    let r := _on_before_tool mode max_steps cfg st c.tool_name c.tool_input
    let rr := runBeforeTools mode max_steps cfg r.state rest
    (rr.1, r.cancel :: rr.2)

/-- Python `isinstance(tool_result, dict) and tool_result.get("status") == "error"`. -/
def isErrorResult : Val → Bool
  | .dict d =>
    match lookup d "status" with
    | some (.str s) => s == "error"
    | _ => false
  | _ => false

/-- The status decision in `NornHook._on_after_tool`: FAILED on a framework
exception; else REDUNDANT when any non-auto-resolved `INFINITE_LOOP` issue
exists on the session; else FAILED when the raw result dict carries
`status == "error"`; else SUCCESS. -/
def _on_after_tool_status (exception : Bool) (issues : List QualityIssue)
    (tool_result : Val) : StepStatus :=
  if exception then StepStatus.FAILED
  else if issues.any (fun i => !i.auto_resolved && i.issue_type == .INFINITE_LOOP) then
    StepStatus.REDUNDANT
  else if isErrorResult tool_result then StepStatus.FAILED
  else StepStatus.SUCCESS

/-- C1: in `intervene` mode, five identical `wait` calls raise a severity-9
`INFINITE_LOOP` issue and set `loop_detected`, yet no call is cancelled:
the cancel branch of `_on_before_tool` sits under the
`SECURITY_BYPASS ∧ severity ≥ 7` check (while logging "Loop detected"), so
loop detection alone never cancels, and no step with status `BLOCKED` is
ever recorded — `_on_before_tool` records no step at all. -/
theorem C1_intervene_misses_loop :
    (runBeforeTools GuardMode.intervene 50 ⟨5, 3, 10⟩ initHookState
        [⟨"wait", []⟩, ⟨"wait", []⟩, ⟨"wait", []⟩, ⟨"wait", []⟩, ⟨"wait", []⟩]).1.loop_detected
      = true
    ∧ ((runBeforeTools GuardMode.intervene 50 ⟨5, 3, 10⟩ initHookState
        [⟨"wait", []⟩, ⟨"wait", []⟩, ⟨"wait", []⟩, ⟨"wait", []⟩, ⟨"wait", []⟩]).1.issues.countP
          (fun i => i.issue_type == IssueType.INFINITE_LOOP && decide (8 ≤ i.severity))) = 1
    ∧ (runBeforeTools GuardMode.intervene 50 ⟨5, 3, 10⟩ initHookState
        [⟨"wait", []⟩, ⟨"wait", []⟩, ⟨"wait", []⟩, ⟨"wait", []⟩, ⟨"wait", []⟩]).2
      = [none, none, none, none, none] := by
  decide

/-- C6: scenario S4 — two `read` calls with identical inputs. The analyzer
classifies the second call as `REDUNDANT` and emits the severity-3
`INEFFICIENCY` issue, but `_on_after_tool` discards that status: it marks a
step REDUNDANT only when an `INFINITE_LOOP` issue exists on the session, so
step 2 is recorded with status `SUCCESS`, contradicting the claim. -/
theorem C6_duplicate_status_not_redundant :
    (analyze_step ⟨5, 3, 10⟩
        (_on_before_tool .monitor 50 ⟨5, 3, 10⟩ initHookState
          "read" [("path", Val.str "a")]).state.analyzer
        "read" [("path", Val.str "a")] 2).status = StepStatus.REDUNDANT
    ∧ _on_after_tool_status false
        (_on_before_tool .monitor 50 ⟨5, 3, 10⟩
          (_on_before_tool .monitor 50 ⟨5, 3, 10⟩ initHookState
            "read" [("path", Val.str "a")]).state
          "read" [("path", Val.str "a")]).state.issues
        (Val.str "file contents") = StepStatus.SUCCESS
    ∧ ((_on_before_tool .monitor 50 ⟨5, 3, 10⟩
          (_on_before_tool .monitor 50 ⟨5, 3, 10⟩ initHookState
            "read" [("path", Val.str "a")]).state
          "read" [("path", Val.str "a")]).state.issues.countP
        (fun i => i.issue_type == IssueType.INEFFICIENCY && i.severity == 3)) = 1 := by
  refine ⟨?_, ?_, ?_⟩ <;>
    simp [_on_before_tool, _on_after_tool_status, analyze_step, recordIssues, _hash_input,
      pyStrItems, sortItems, insertSorted, pyRepr, joinComma, sq, stepSig, initHookState,
      initAnalyzer, lookup, isFalseLit, isTrueLit, strIn, occursIn, chStarts, lowerChars,
      chLower, _SSL_BYPASS_KEYS, _SHELL_KEYS, _CMD_KEYS, _CRED_MARKERS, _SHELL_METACHAR,
      bump, countOf, dequePush, mostCommonCount, stepTag, isErrorResult]

/-! ## REST/WebSocket auth gate (`norn/shared.py`, router decorators) -/

/-- The REST endpoints of the service (`norn/api.py` and `norn/routers/`). -/
inductive Endpoint where
  | health
  | sessionsList
  | sessionGet
  | sessionsIngest
  | sessionStep
  | sessionComplete
  | sessionDelete
  | stepDelete
  | agentsRegister
  | agentsList
  | agentGet
  | agentDelete
  | agentRun
  | importGithub
  | importZip
  | auditLogs
  | stats
  | configGet
  | configPut
  | swarmsList
  | swarmGet
  | swarmAnalysis
deriving DecidableEq, Repr

/-- Which endpoints carry `dependencies=[Depends(verify_api_key)]` in the
source decorators. -/
def requiresAuth : Endpoint → Bool
  | .sessionsList => true
  | .sessionGet => true
  | .sessionDelete => true
  | .stepDelete => true
  | .agentsList => true
  | .agentGet => true
  | .agentDelete => true
  | .agentRun => true
  | .importGithub => true
  | .importZip => true
  | .auditLogs => true
  | .stats => true
  | .configGet => true
  | .configPut => true
  | .health => false
  | .agentsRegister => false
  | .sessionsIngest => false
  | .sessionStep => false
  | .sessionComplete => false
  | .swarmsList => false
  | .swarmGet => false
  | .swarmAnalysis => false

/-- The credentials carried by a request. -/
structure ApiRequest where
  header : Option String
  query : Option String
deriving Repr

/-- Python `a or b` over optional strings (an empty string is falsy). -/
def pyOrOpt (a b : Option String) : Option String :=
  match a with
  | some s => if s.isEmpty then b else some s
  | none => b

/-- `verify_api_key` (`norn/shared.py`): pass when no key is configured;
otherwise the `X-API-Key` header or the `api_key` query parameter must
equal the configured key. Returns `true` when the request passes. -/
def verify_api_key (apiKey : String) (r : ApiRequest) : Bool :=
  if apiKey.isEmpty then true
  else
    match pyOrOpt r.header r.query with
    | some k => k == apiKey
    | none => false

/-- Outcome of dispatching a request. -/
inductive HttpOutcome where
  | unauthorized
  | handled
deriving DecidableEq, Repr

/-- FastAPI dispatch: run `verify_api_key` only for endpoints whose
decorator lists it; a failing check yields 401. -/
def handleRequest (apiKey : String) (e : Endpoint) (r : ApiRequest) : HttpOutcome :=
  if requiresAuth e && !(verify_api_key apiKey r) then .unauthorized else .handled

/-- The WebSocket upgrade check of `/ws/sessions`: with a key configured,
`query_params.get("api_key") or headers.get("x-api-key")` must equal it,
else the socket is closed with 4001. Returns `true` when accepted. -/
def ws_auth_accept (apiKey : String) (query header : Option String) : Bool :=
  if apiKey.isEmpty then true
  else
    match pyOrOpt query header with
    | some k => k == apiKey
    | none => false

/-- C2 (counterexample): with API key "secret" configured, the mutating
endpoints POST /api/sessions/ingest, /step and /complete handle a request
carrying no credentials at all — they have no auth dependency. -/
theorem C2_counterexample :
    ("secret" : String).isEmpty = false
    ∧ handleRequest "secret" .sessionsIngest ⟨none, none⟩ = .handled
    ∧ handleRequest "secret" .sessionStep ⟨none, none⟩ = .handled
    ∧ handleRequest "secret" .sessionComplete ⟨none, none⟩ = .handled
    ∧ handleRequest "secret" .swarmsList ⟨none, none⟩ = .handled := by
  decide

/-- C2 (amended): with an API key configured, exactly the endpoints whose
decorators carry the auth dependency — the session/agent GET and DELETE
routes, agent run and import, audit-logs, stats and config — reject a
request iff its effective credential (header, else query) differs from the
key; the WebSocket upgrade applies the same check (query, then header).
POST ingest/step/complete, hook registration, health and the swarm routes
never reject. -/
theorem C2_auth_gate (apiKey : String) (e : Endpoint) (r : ApiRequest)
    (q h : Option String) (hk : apiKey.isEmpty = false) :
    (handleRequest apiKey e r = .unauthorized
      ↔ requiresAuth e = true ∧ pyOrOpt r.header r.query ≠ some apiKey)
    ∧ (ws_auth_accept apiKey q h = false ↔ pyOrOpt q h ≠ some apiKey) := by
  have hv : ∀ creds : Option String,
      (match creds with
        | some k => k == apiKey
        | none => false) = false ↔ creds ≠ some apiKey := by
    intro creds
    cases creds with
    | none => simp
    | some k => simp
  have hcreds : verify_api_key apiKey r = false ↔ pyOrOpt r.header r.query ≠ some apiKey := by
    unfold verify_api_key
    rw [if_neg (by simp [hk])]
    exact hv (pyOrOpt r.header r.query)
  constructor
  · cases ha : requiresAuth e with
    | false => simp [handleRequest, ha]
    | true =>
      cases hb : verify_api_key apiKey r with
      | false =>
        have hne := hcreds.mp hb
        simp [handleRequest, ha, hb, hne]
      | true =>
        have hne : ¬ (pyOrOpt r.header r.query ≠ some apiKey) := by
          intro hne
          have hf := hcreds.mpr hne
          rw [hb] at hf
          cases hf
        simp [handleRequest, ha, hb, hne]
  · unfold ws_auth_accept
    rw [if_neg (by simp [hk])]
    exact hv (pyOrOpt q h)

/-- C2 (witness): with key "secret", PUT /api/config with a wrong header is
rejected, and the WebSocket upgrade without credentials is refused. -/
theorem C2_auth_gate_witness :
    handleRequest "secret" .configPut ⟨some "wrong", none⟩ = .unauthorized
    ∧ ws_auth_accept "secret" none none = false := by
  have hg := C2_auth_gate "secret" .configPut ⟨some "wrong", none⟩ none none (by decide)
  exact ⟨hg.1.mpr (by decide), hg.2.mpr (by decide)⟩

/-! ## Step numbering across lifecycle events (C8) -/

/-- One content block of a framework message (Bedrock format): a text
block, a `toolUse` block, or anything else. Plain string blocks are text. -/
inductive MsgBlock where
  | text (s : String)
  | toolUse
  | other
deriving DecidableEq, Repr

/-- A lifecycle event that can produce a step: a `MessageAdded` event, or a
`BeforeTool`/`AfterTool` pair for one tool call (the framework delivers
`AfterTool` for every `BeforeTool`). -/
inductive HookEvent where
  | message (role : String) (blocks : List MsgBlock)
  | toolCall (c : ToolCall)
deriving Repr

/-- The pipeline state that step numbering depends on: the step counter,
the count of steps from previous runs of a resumed session
(`_existing_step_count`), and the `step_number`s of the recorded steps. -/
structure NumState where
  step_counter : Nat
  existing : Nat
  stepNumbers : List Nat
deriving Repr

/-- State after `SessionStart` (+ `_dashboard_on_session_start` resume: the
counter resumes from the number of steps already stored for the session). -/
def numInit (existing : Nat) : NumState := ⟨existing, existing, []⟩

/-- The text parts of a message's content blocks. -/
def textParts (blocks : List MsgBlock) : List String :=
  blocks.filterMap fun b =>
    match b with
    | .text s => some s
    | _ => none

/-- How one event changes the numbering state. `_on_message_added`
synthesizes an `ai_reasoning` step (incrementing the counter) only for a
non-empty assistant message without `toolUse` blocks before any tool call
of this invocation; `_on_before_tool` increments the counter and
`_on_after_tool` records the step with that number. -/
def handleEvent (st : NumState) : HookEvent → NumState
  | .message role blocks =>
    let has_tool_use := blocks.any fun b =>
      match b with
      | .toolUse => true
      | _ => false
    let invocation_tool_steps := st.step_counter - st.existing
    if role == "assistant" && !blocks.isEmpty && !has_tool_use
        && invocation_tool_steps == 0
        && !(String.intercalate "\n" (textParts blocks)).trim.isEmpty then
      ⟨st.step_counter + 1, st.existing, st.stepNumbers ++ [st.step_counter + 1]⟩
    else st
  | .toolCall _ =>
    ⟨st.step_counter + 1, st.existing, st.stepNumbers ++ [st.step_counter + 1]⟩

/-- The numbering state after a whole session's events. -/
def runEvents (existing : Nat) (evs : List HookEvent) : NumState :=
  evs.foldl handleEvent (numInit existing)

theorem range'_snoc (a : Nat) : ∀ n : Nat, List.range' a n ++ [a + n] = List.range' a (n + 1) := by
  intro n
  induction n generalizing a with
  | zero => simp [List.range']
  | succ m ih =>
    rw [List.range'_succ, List.range'_succ]
    have h1 : a + (m + 1) = (a + 1) + m := by omega
    rw [List.cons_append, h1, ih (a + 1)]

/-- The numbering invariant preserved by every event. -/
def NumInv (st : NumState) : Prop :=
  st.step_counter = st.existing + st.stepNumbers.length
    ∧ st.stepNumbers = List.range' (st.existing + 1) st.stepNumbers.length

theorem snoc_inv (e c : Nat) (l : List Nat) (hl : l = List.range' (e + 1) l.length)
    (hc : c = e + l.length) :
    l ++ [c + 1] = List.range' (e + 1) ((l ++ [c + 1]).length) := by
  have hlen : (l ++ [c + 1]).length = l.length + 1 := by simp
  rw [hlen, ← range'_snoc, ← hl]
  have hcl : c + 1 = e + 1 + l.length := by omega
  rw [hcl]

theorem handleEvent_inv (st : NumState) (e : HookEvent) (h : NumInv st) :
    NumInv (handleEvent st e) ∧ (handleEvent st e).existing = st.existing := by
  obtain ⟨h1, h2⟩ := h
  cases e with
  | message role blocks =>
    simp only [handleEvent]
    split
    · refine ⟨⟨?_, ?_⟩, rfl⟩
      · simp only [List.length_append, List.length_singleton]
        omega
      · exact snoc_inv st.existing st.step_counter st.stepNumbers h2 h1
    · exact ⟨⟨h1, h2⟩, rfl⟩
  | toolCall c =>
    refine ⟨⟨?_, ?_⟩, rfl⟩
    · simp only [handleEvent, List.length_append, List.length_singleton]
      omega
    · exact snoc_inv st.existing st.step_counter st.stepNumbers h2 h1

theorem runEvents_inv (existing : Nat) (evs : List HookEvent) :
    NumInv (runEvents existing evs) ∧ (runEvents existing evs).existing = existing := by
  suffices h : ∀ (st : NumState), NumInv st →
      NumInv (evs.foldl handleEvent st) ∧ (evs.foldl handleEvent st).existing = st.existing by
    have := h (numInit existing) (by constructor <;> simp [numInit])
    simpa [runEvents] using this
  induction evs with
  | nil => intro st h; exact ⟨h, rfl⟩
  | cons e rest ih =>
    intro st h
    have h1 := handleEvent_inv st e h
    have h2 := ih (handleEvent st e) h1.1
    simp only [List.foldl_cons]
    exact ⟨h2.1, h2.2.trans h1.2⟩

/-- C8 (counterexample): a resumed session with 3 prior steps records its
first tool call with `step_number = 4`, so the persisted report's step
numbers are `[4]`, not `1..1`. -/
theorem C8_counterexample :
    (runEvents 3 [.toolCall ⟨"calc", []⟩]).stepNumbers = [4]
    ∧ List.range' 1 (runEvents 3 [.toolCall ⟨"calc", []⟩]).stepNumbers.length = [1] := by
  constructor <;> rfl

/-- C8 (amended): for every session run — with synthetic `ai_reasoning`
steps and tool calls in any order, and assuming the framework delivers
`AfterTool` for every `BeforeTool` — the recorded `step_number`s are the
consecutive run `existing+1, …, existing+len` starting after the
`_existing_step_count` of a resumed session; they are exactly `1..len`
precisely for non-resumed sessions (`existing = 0`). -/
theorem C8_step_numbers_dense (existing : Nat) (evs : List HookEvent) :
    (runEvents existing evs).stepNumbers
      = List.range' (existing + 1) (runEvents existing evs).stepNumbers.length := by
  have h := runEvents_inv existing evs
  have h2 := h.1.2
  rw [h.2] at h2
  exact h2

/-! ## Session store merge (`LocalFileStore.write_session`) -/

mutual

/-- Python `==` on values. -/
def valBeq : Val → Val → Bool
  | .null, .null => true
  | .str a, .str b => a == b
  | .int a, .int b => a == b
  | .bool a, .bool b => a == b
  | .list xs, .list ys => valListBeq xs ys
  | .dict xs, .dict ys => valDictBeq xs ys
  | _, _ => false

/-- Elementwise `==` on lists. -/
def valListBeq : List Val → List Val → Bool
  | [], [] => true
  | x :: xs, y :: ys => valBeq x y && valListBeq xs ys
  | _, _ => false

/-- Itemwise `==` on dicts. -/
def valDictBeq : List (String × Val) → List (String × Val) → Bool
  | [], [] => true
  | (k1, v1) :: xs, (k2, v2) :: ys => k1 == k2 && valBeq v1 v2 && valDictBeq xs ys
  | _, _ => false

end

/-- The items of a dict value (the steps in a session file are dicts). -/
def asDict : Val → List (String × Val)
  | .dict d => d
  | _ => []

/-- The elements of a list value. -/
def asList : Val → List Val
  | .list l => l
  | _ => []

/-- Python `v is None or v == "" or v == []`: the new values that must NOT
overwrite an existing step field in the merge. -/
def mergeBlocked : Val → Bool
  | .null => true
  | .str s => s.isEmpty
  | .list l => l.isEmpty
  | _ => false

/-- Update one existing step dict with the new step's items, replacing only
fields whose new value is non-null, non-empty-string and non-empty-list. -/
def mergeStepInto (tgt s : List (String × Val)) : List (String × Val) :=
  s.foldl (fun t kv => if mergeBlocked kv.2 then t else setKey t kv.1 kv.2) tgt

/-- Assignment into the `existing_by_id` index (Python dict keyed by the
`step_id` value). -/
def setById : List (Val × Nat) → Val → Nat → List (Val × Nat)
  | [], sid, i => [(sid, i)]
  | (k, j) :: rest, sid, i =>
    if valBeq k sid then (k, i) :: rest else (k, j) :: setById rest sid i

/-- Lookup in the `existing_by_id` index. -/
def lookupById : List (Val × Nat) → Val → Option Nat
  | [], _ => none
  | (k, j) :: rest, sid => if valBeq k sid then some j else lookupById rest sid

/-- Build `existing_by_id`: index of each existing step by its truthy
`step_id` (later occurrences overwrite earlier ones). -/
def buildById : List Val → Nat → List (Val × Nat) → List (Val × Nat)
  | [], _, m => m
  | s :: rest, i, m =>
    let sid := getOpt (asDict s) "step_id"
    buildById rest (i + 1) (if truthy sid then setById m sid i else m)

/-- The merge loop over `new_steps`: a new step whose truthy `step_id` is
in the index updates the existing step in place; otherwise it is
appended. -/
def mergeStepsGo (byId : List (Val × Nat)) : List Val → List Val → List Val
  | merged, [] => merged
  | merged, s :: rest =>
    let sid := getOpt (asDict s) "step_id"
    match (if truthy sid then lookupById byId sid else none) with
    | some i =>
      mergeStepsGo byId
        (merged.set i (Val.dict (mergeStepInto (asDict ((merged[i]?).getD Val.null)) (asDict s))))
        rest
    | none => mergeStepsGo byId (merged ++ [s]) rest

/-- The `for key in ("agent_id", "status")` loop of `write_session`:
carry over the externally-added fields when the new value is falsy. -/
def preserveFields (ex new_data : List (String × Val)) : List (String × Val) :=
  let d1 := if containsKey ex "agent_id" && !truthy (getOpt new_data "agent_id") then
      setKey new_data "agent_id" (getOpt ex "agent_id")
    else new_data
  if containsKey ex "status" && !truthy (getOpt d1 "status") then
    setKey d1 "status" (getOpt ex "status")
  else d1

/-- `LocalFileStore.write_session` (`norn/core/audit_logger.py`), the merge
against the already-persisted session file: preserve `agent_id` and
`status` when the new value is falsy, merge the steps arrays by `step_id`
(when the existing file has steps), and refresh `total_steps`. -/
def write_session (existing : Option (List (String × Val)))
    (new_data : List (String × Val)) : List (String × Val) :=
  match existing with
  | none => new_data
  | some ex =>
    if ex.isEmpty then new_data
    else
      let d2 := preserveFields ex new_data
      let existing_steps := asList (pyOr (getOpt ex "steps") (Val.list []))
      let new_steps := asList (pyOr (getOpt d2 "steps") (Val.list []))
      if existing_steps.isEmpty then d2
      else
        let merged := mergeStepsGo (buildById existing_steps 0 []) existing_steps new_steps
        setKey (setKey d2 "steps" (Val.list merged)) "total_steps" (Val.int merged.length)

/-- C7 (counterexample): a top-level field other than `agent_id`/`status` —
here `security_score`, non-null in the stored session S but null in the
partial write P — is NOT kept: the merged result carries P's null. -/
theorem C7_counterexample :
    getOpt (write_session
        (some [("session_id", Val.str "s1"), ("security_score", Val.int 80)])
        [("session_id", Val.str "s1"), ("security_score", Val.null)])
      "security_score" = Val.null
    ∧ getOpt [("session_id", Val.str "s1"), ("security_score", Val.int 80)]
        "security_score" = Val.int 80
    ∧ Val.null ≠ Val.int 80 := by
  refine ⟨rfl, rfl, ?_⟩
  intro h
  exact Val.noConfusion h

theorem valBeq_str_right (w : Val) (b : String) :
    valBeq w (Val.str b) = true ↔ w = Val.str b := by
  cases w <;> simp [valBeq]

theorem valBeq_str_left (b : String) (w : Val) :
    valBeq (Val.str b) w = true ↔ w = Val.str b := by
  cases w <;> simp [valBeq]
  exact eq_comm

theorem lookup_setKey_self (d : List (String × Val)) (k : String) (v : Val) :
    lookup (setKey d k v) k = some v := by
  induction d with
  | nil => simp [setKey, lookup]
  | cons kv rest ih =>
    obtain ⟨k1, v1⟩ := kv
    by_cases h : k1 == k
    · simp [setKey, h, lookup]
    · simp only [setKey, h, Bool.false_eq_true, if_false, lookup]
      simp [h, ih]

theorem lookup_setKey_other (d : List (String × Val)) (k : String) (v : Val)
    (k2 : String) (hne : k2 ≠ k) :
    lookup (setKey d k v) k2 = lookup d k2 := by
  induction d with
  | nil =>
    simp only [setKey, lookup]
    have : (k == k2) = false := by
      simp
      exact fun h => hne h.symm
    simp [this]
  | cons kv rest ih =>
    obtain ⟨k1, v1⟩ := kv
    by_cases h : k1 == k
    · have hk1 : k1 = k := by simpa using h
      subst hk1
      have : (k1 == k2) = false := by
        simp
        exact fun h2 => hne h2.symm
      simp [setKey, lookup, this]
    · simp only [setKey, h, Bool.false_eq_true, if_false, lookup]
      by_cases h2 : k1 == k2
      · simp [h2]
      · simp [h2, ih]

theorem lookup_eq_none_of_not_mem (d : List (String × Val)) (k : String)
    (h : k ∉ d.map Prod.fst) : lookup d k = none := by
  induction d with
  | nil => rfl
  | cons kv rest ih =>
    obtain ⟨k1, v1⟩ := kv
    simp only [List.map_cons, List.mem_cons] at h
    push_neg at h
    have : (k1 == k) = false := by
      simp
      exact fun he => h.1 he.symm
    simp only [lookup, this, Bool.false_eq_true, if_false]
    exact ih h.2

theorem mergeStepInto_lookup (s : List (String × Val)) :
    ∀ (tgt : List (String × Val)) (k : String),
      (s.map Prod.fst).Nodup →
      lookup (mergeStepInto tgt s) k =
        match lookup s k with
        | some v => if mergeBlocked v then lookup tgt k else some v
        | none => lookup tgt k := by
  induction s with
  | nil => intro tgt k _; simp [mergeStepInto, lookup]
  | cons kv rest ih =>
    intro tgt k hnodup
    obtain ⟨k1, v1⟩ := kv
    have hnd : (rest.map Prod.fst).Nodup := (List.nodup_cons.mp (by simpa using hnodup)).2
    have hk1notin : k1 ∉ rest.map Prod.fst := (List.nodup_cons.mp (by simpa using hnodup)).1
    have hstep : mergeStepInto tgt ((k1, v1) :: rest)
        = mergeStepInto (if mergeBlocked v1 then tgt else setKey tgt k1 v1) rest := by
      simp [mergeStepInto]
    rw [hstep, ih _ k hnd]
    by_cases hk : k1 == k
    · have hkk : k1 = k := by simpa using hk
      subst hkk
      have hrest : lookup rest k1 = none := lookup_eq_none_of_not_mem rest k1 hk1notin
      rw [hrest]
      simp only [lookup, beq_self_eq_true, if_true]
      by_cases hb : mergeBlocked v1
      · simp [hb]
      · simp [hb, lookup_setKey_self]
    · have hkk : k1 ≠ k := by simpa using hk
      simp only [lookup, hk, Bool.false_eq_true, if_false]
      by_cases hb : mergeBlocked v1
      · simp [hb]
      · simp [hb, lookup_setKey_other tgt k1 v1 k (fun he => hkk he.symm)]

theorem lookupById_setById_self (m : List (Val × Nat)) (a : String) (i : Nat) :
    lookupById (setById m (Val.str a) i) (Val.str a) = some i := by
  induction m with
  | nil => simp [setById, lookupById, valBeq]
  | cons kj rest ih =>
    obtain ⟨k, j⟩ := kj
    by_cases h : valBeq k (Val.str a) = true
    · simp [setById, h, lookupById]
    · have h2 : valBeq k (Val.str a) = false := by
        cases hb : valBeq k (Val.str a)
        · rfl
        · exact absurd hb h
      simp [setById, h2, lookupById, ih]

theorem lookupById_setById_ne (m : List (Val × Nat)) (sid : Val) (b : String) (i : Nat)
    (h : sid ≠ Val.str b) :
    lookupById (setById m sid i) (Val.str b) = lookupById m (Val.str b) := by
  induction m with
  | nil =>
    simp only [setById, lookupById]
    have : valBeq sid (Val.str b) = false := by
      cases hb : valBeq sid (Val.str b)
      · rfl
      · exact absurd ((valBeq_str_right sid b).mp hb) h
    simp [this]
  | cons kj rest ih =>
    obtain ⟨k, j⟩ := kj
    by_cases hks : valBeq k sid = true
    · simp only [setById, hks, if_true, lookupById]
      have hkb : valBeq k (Val.str b) = false := by
        cases hb : valBeq k (Val.str b)
        · rfl
        · exfalso
          have hk : k = Val.str b := (valBeq_str_right k b).mp hb
          subst hk
          exact h ((valBeq_str_left b sid).mp hks)
      simp [hkb]
    · have hks2 : valBeq k sid = false := by
        cases hb : valBeq k sid
        · rfl
        · exact absurd hb hks
      simp only [setById, hks2, Bool.false_eq_true, if_false, lookupById]
      by_cases hkb : valBeq k (Val.str b) = true
      · simp [hkb]
      · have hkb2 : valBeq k (Val.str b) = false := by
          cases hb : valBeq k (Val.str b)
          · rfl
          · exact absurd hb hkb
        simp [hkb2, ih]

theorem buildById_preserve : ∀ (es : List Val) (n : Nat) (m : List (Val × Nat)) (b : String),
    (∀ s ∈ es, getOpt (asDict s) "step_id" ≠ Val.str b) →
    lookupById (buildById es n m) (Val.str b) = lookupById m (Val.str b) := by
  intro es
  induction es with
  | nil => intro n m b _; rfl
  | cons s rest ih =>
    intro n m b h
    have hs : getOpt (asDict s) "step_id" ≠ Val.str b := h s (by simp)
    have hrest : ∀ t ∈ rest, getOpt (asDict t) "step_id" ≠ Val.str b :=
      fun t ht => h t (by simp [ht])
    simp only [buildById]
    rw [ih (n + 1) _ b hrest]
    by_cases ht : truthy (getOpt (asDict s) "step_id") = true
    · simp only [ht, if_true]
      exact lookupById_setById_ne m _ b n hs
    · have ht2 : truthy (getOpt (asDict s) "step_id") = false := by
        cases hb : truthy (getOpt (asDict s) "step_id")
        · rfl
        · exact absurd hb ht
      simp [ht2]

theorem buildById_lookup_fwd : ∀ (es : List Val) (ids : List String) (n : Nat)
    (m : List (Val × Nat)),
    ids.length = es.length →
    (∀ (i : Nat) (h1 : i < es.length) (h2 : i < ids.length),
      getOpt (asDict (es.get ⟨i, h1⟩)) "step_id" = Val.str (ids.get ⟨i, h2⟩)) →
    ids.Nodup →
    (∀ s ∈ ids, s ≠ "") →
    ∀ (i : Nat) (_h1 : i < es.length) (h2 : i < ids.length),
      lookupById (buildById es n m) (Val.str (ids.get ⟨i, h2⟩)) = some (n + i) := by
  intro es
  induction es with
  | nil =>
    intro ids n m hlen hid hnd hne i h1 h2
    exact absurd h1 (by simp)
  | cons s est ih =>
    intro ids n m hlen hid hnd hne i h1 h2
    cases ids with
    | nil => simp at hlen
    | cons id0 idt =>
      have hsid : getOpt (asDict s) "step_id" = Val.str id0 := by
        have := hid 0 (by simp) (by simp)
        simpa using this
      have hid0ne : id0 ≠ "" := hne id0 (by simp)
      have hie : id0.isEmpty = false := by
        cases he : id0.isEmpty
        · rfl
        · exact absurd ((String.isEmpty_iff id0).mp he) hid0ne
      have htruthy : truthy (Val.str id0) = true := by simp [truthy, hie]
      simp only [buildById, hsid, htruthy, if_true]
      cases i with
      | zero =>
        have hrest : ∀ t ∈ est, getOpt (asDict t) "step_id" ≠ Val.str id0 := by
          intro t ht
          obtain ⟨⟨j, hj⟩, ht2⟩ := List.mem_iff_get.mp ht
          have hj2 : j + 1 < (s :: est).length := by simpa using Nat.succ_lt_succ hj
          have hj3 : j < idt.length := by
            have := hlen
            simp at this
            omega
          have hj4 : j + 1 < (id0 :: idt).length := by simpa using Nat.succ_lt_succ hj3
          have hsid2 := hid (j + 1) hj2 hj4
          have hget1 : (s :: est).get ⟨j + 1, hj2⟩ = est.get ⟨j, hj⟩ := rfl
          have hget2 : (id0 :: idt).get ⟨j + 1, hj4⟩ = idt.get ⟨j, hj3⟩ := rfl
          rw [hget1, hget2] at hsid2
          rw [← ht2, hsid2]
          intro hcon
          have : idt.get ⟨j, hj3⟩ = id0 := by
            injection hcon
          have hmem : idt.get ⟨j, hj3⟩ ∈ idt := List.get_mem idt j hj3
          rw [this] at hmem
          exact (List.nodup_cons.mp hnd).1 hmem
        have hg0 : (id0 :: idt).get ⟨0, h2⟩ = id0 := rfl
        rw [hg0, buildById_preserve est (n + 1) _ id0 hrest]
        have hres := lookupById_setById_self m id0 n
        simpa using hres
      | succ i2 =>
        have hlen2 : idt.length = est.length := by
          simp at hlen
          omega
        have hid2 : ∀ (j : Nat) (h1 : j < est.length) (h2 : j < idt.length),
            getOpt (asDict (est.get ⟨j, h1⟩)) "step_id" = Val.str (idt.get ⟨j, h2⟩) := by
          intro j hj1 hj2
          have hj2a : j + 1 < (s :: est).length := by simpa using Nat.succ_lt_succ hj1
          have hj4 : j + 1 < (id0 :: idt).length := by simpa using Nat.succ_lt_succ hj2
          have := hid (j + 1) hj2a hj4
          simpa using this
        have hnd2 : idt.Nodup := (List.nodup_cons.mp hnd).2
        have hne2 : ∀ x ∈ idt, x ≠ "" := fun x hx => hne x (by simp [hx])
        have h1b : i2 < est.length := by simpa using Nat.lt_of_succ_lt_succ h1
        have h2b : i2 < idt.length := by simpa using Nat.lt_of_succ_lt_succ h2
        have := ih idt (n + 1) (setById m (Val.str id0) n) hlen2 hid2 hnd2 hne2 i2 h1b h2b
        have hgeteq : (id0 :: idt).get ⟨i2 + 1, h2⟩ = idt.get ⟨i2, h2b⟩ := rfl
        rw [hgeteq, this]
        congr 1
        omega

theorem buildById_none (es : List Val) (ids : List String) (b : String)
    (hlen : ids.length = es.length)
    (hid : ∀ (i : Nat) (h1 : i < es.length) (h2 : i < ids.length),
      getOpt (asDict (es.get ⟨i, h1⟩)) "step_id" = Val.str (ids.get ⟨i, h2⟩))
    (hb : b ∉ ids) :
    lookupById (buildById es 0 []) (Val.str b) = none := by
  have h : ∀ s ∈ es, getOpt (asDict s) "step_id" ≠ Val.str b := by
    intro t ht
    obtain ⟨⟨j, hj⟩, ht2⟩ := List.mem_iff_get.mp ht
    have hj2 : j < ids.length := by omega
    rw [← ht2, hid j hj hj2]
    intro hcon
    have hjb : ids.get ⟨j, hj2⟩ = b := by injection hcon
    exact hb (hjb ▸ List.get_mem ids j hj2)
  rw [buildById_preserve es 0 [] b h]
  rfl

theorem foldl_no_match {α : Type} (p : Val → Bool) (f : α → Val → α) :
    ∀ (ns : List Val) (x : α), ns.countP p = 0 →
      ns.foldl (fun a s => if p s then f a s else a) x = x := by
  intro ns
  induction ns with
  | nil => intro x _; rfl
  | cons s rest ih =>
    intro x h
    have hps : p s = false := by
      cases hp : p s
      · rfl
      · rw [List.countP_cons_of_pos p rest hp] at h; omega
    rw [List.countP_cons_of_neg p rest (by simp [hps])] at h
    simp only [List.foldl_cons, hps, Bool.false_eq_true, if_false]
    exact ih x h

theorem foldl_single {α : Type} (p : Val → Bool) (f : α → Val → α) :
    ∀ (ns : List Val) (x : α), ns.countP p ≤ 1 →
      ns.foldl (fun a s => if p s then f a s else a) x =
        match ns.find? p with
        | some s => f x s
        | none => x := by
  intro ns
  induction ns with
  | nil => intro x _; rfl
  | cons s rest ih =>
    intro x h
    cases hp : p s
    · rw [List.countP_cons_of_neg p rest (by simp [hp])] at h
      rw [List.find?_cons_of_neg _ (by simp [hp])]
      simp only [List.foldl_cons, hp, Bool.false_eq_true, if_false]
      exact ih x h
    · rw [List.countP_cons_of_pos p rest hp] at h
      have hz : rest.countP p = 0 := by omega
      simp only [List.foldl_cons, hp, if_true, List.find?_cons_of_pos _ hp]
      exact foldl_no_match p f rest (f x s) hz

theorem mergeStepsGo_get (byId : List (Val × Nat)) :
    ∀ (ns merged : List Val) (i : Nat), i < merged.length →
      (mergeStepsGo byId merged ns)[i]? =
        some (ns.foldl (fun acc s =>
            if truthy (getOpt (asDict s) "step_id")
                && (lookupById byId (getOpt (asDict s) "step_id") == some i) then
              Val.dict (mergeStepInto (asDict acc) (asDict s))
            else acc)
          ((merged[i]?).getD Val.null)) := by
  intro ns
  induction ns with
  | nil =>
    intro merged i hi
    simp only [mergeStepsGo, List.foldl_nil]
    rw [(List.getElem?_eq_some_getElem_iff merged i hi).mpr trivial]
    rfl
  | cons s rest ih =>
    intro merged i hi
    by_cases ht : truthy (getOpt (asDict s) "step_id") = true
    · cases hl : lookupById byId (getOpt (asDict s) "step_id") with
      | none =>
        have hstep : mergeStepsGo byId merged (s :: rest)
            = mergeStepsGo byId (merged ++ [s]) rest := by
          simp [mergeStepsGo, ht, hl]
        rw [hstep, ih (merged ++ [s]) i (by simp only [List.length_append]; omega)]
        have hget : (merged ++ [s])[i]? = merged[i]? := List.getElem?_append_left hi
        rw [hget]
        congr 1
        simp only [List.foldl_cons, ht, hl]
        simp
      | some j =>
        set upd := Val.dict (mergeStepInto (asDict ((merged[j]?).getD Val.null)) (asDict s))
          with hupd
        have hstep : mergeStepsGo byId merged (s :: rest)
            = mergeStepsGo byId (merged.set j upd) rest := by
          simp [mergeStepsGo, ht, hl, hupd]
        rw [hstep, ih (merged.set j upd) i (by simp only [List.length_set]; omega)]
        by_cases hij : i = j
        · subst hij
          have hget : (merged.set i upd)[i]? = some upd := List.getElem?_set_self hi
          rw [hget]
          congr 1
          simp only [Option.getD_some]
          conv_rhs => rw [List.foldl_cons]
          rw [if_pos (by simp [ht, hl])]
        · have hget : (merged.set j upd)[i]? = merged[i]? :=
            List.getElem?_set_ne (fun he => hij he.symm)
          rw [hget]
          congr 1
          conv_rhs => rw [List.foldl_cons]
          rw [if_neg (by simp [ht, hl]; exact fun h => hij h.symm)]
    · have ht2 : truthy (getOpt (asDict s) "step_id") = false := by
        cases hb : truthy (getOpt (asDict s) "step_id")
        · rfl
        · exact absurd hb ht
      have hstep : mergeStepsGo byId merged (s :: rest)
          = mergeStepsGo byId (merged ++ [s]) rest := by
        simp [mergeStepsGo, ht2]
      rw [hstep, ih (merged ++ [s]) i (by simp only [List.length_append]; omega)]
      have hget : (merged ++ [s])[i]? = merged[i]? := List.getElem?_append_left hi
      rw [hget]
      congr 1
      simp only [List.foldl_cons, ht2]
      simp

theorem lookup_getOpt (d : List (String × Val)) (k : String)
    (h : containsKey d k = true) : lookup d k = some (getOpt d k) := by
  unfold containsKey at h
  cases hl : lookup d k with
  | none => rw [hl] at h; simp at h
  | some v => simp [getOpt, getD, hl]

theorem forall₂_length {α β : Type} (R : α → β → Prop) :
    ∀ (l1 : List α) (l2 : List β), List.Forall₂ R l1 l2 → l2.length = l1.length := by
  intro l1
  induction l1 with
  | nil => intro l2 h; cases h; rfl
  | cons a t ih =>
    intro l2 h
    cases h with
    | cons hr hrest => simpa using ih _ hrest

theorem forall₂_get {α β : Type} (R : α → β → Prop) :
    ∀ (l1 : List α) (l2 : List β), List.Forall₂ R l1 l2 →
      ∀ (i : Nat) (h1 : i < l1.length) (h2 : i < l2.length),
        R (l1.get ⟨i, h1⟩) (l2.get ⟨i, h2⟩) := by
  intro l1
  induction l1 with
  | nil => intro l2 h i h1 h2; exact absurd h1 (by simp)
  | cons a t ih =>
    intro l2 h i h1 h2
    cases h with
    | cons hr hrest =>
      cases i with
      | zero => exact hr
      | succ j =>
        exact ih _ hrest j (by simpa using Nat.lt_of_succ_lt_succ h1)
          (by simpa using Nat.lt_of_succ_lt_succ h2)

theorem find?_congr (p q : Val → Bool) :
    ∀ (l : List Val), (∀ s ∈ l, p s = q s) → l.find? p = l.find? q := by
  intro l
  induction l with
  | nil => intro _; rfl
  | cons s rest ih =>
    intro h
    have hs := h s (by simp)
    cases hp : p s
    · rw [List.find?_cons_of_neg _ (by simp [hp]),
        List.find?_cons_of_neg _ (by simp [← hs, hp])]
      exact ih (fun t ht => h t (by simp [ht]))
    · rw [List.find?_cons_of_pos _ hp, List.find?_cons_of_pos _ (hs ▸ hp)]

theorem foldl_congr_members {α : Type} (p q : Val → Bool) (f : α → Val → α) :
    ∀ (l : List Val) (x : α), (∀ s ∈ l, p s = q s) →
      l.foldl (fun a s => if p s then f a s else a) x
        = l.foldl (fun a s => if q s then f a s else a) x := by
  intro l
  induction l with
  | nil => intro x _; rfl
  | cons s rest ih =>
    intro x h
    have hs := h s (by simp)
    simp only [List.foldl_cons, hs]
    exact ih _ (fun t ht => h t (by simp [ht]))

theorem countP_forall₂ (q : Val → Bool) (c : String) :
    ∀ (ns : List Val) (nids : List String),
      List.Forall₂ (fun s x => getOpt (asDict s) "step_id" = Val.str x) ns nids →
      (∀ s, q s = valBeq (getOpt (asDict s) "step_id") (Val.str c)) →
      ns.countP q = nids.countP (fun x => x == c) := by
  intro ns
  induction ns with
  | nil => intro nids h _; cases h; rfl
  | cons s rest ih =>
    intro nids h hq
    cases h with
    | cons hr hrest =>
      rename_i x t
      have hqs : q s = (x == c) := by
        rw [hq s, hr]
        cases hb : x == c
        · cases hv : valBeq (Val.str x) (Val.str c)
          · rfl
          · have := (valBeq_str_left x (Val.str c)).mp hv
            simp at this
            simp [this] at hb
        · have : x = c := by simpa using hb
          subst this
          simp [valBeq]
      cases hxc : (x == c) with
      | false =>
        rw [List.countP_cons_of_neg _ _ (by simp [hqs, hxc]),
          List.countP_cons_of_neg _ _ (by simp [hxc])]
        exact ih t hrest hq
      | true =>
        rw [List.countP_cons_of_pos _ _ (by simp [hqs, hxc]),
          List.countP_cons_of_pos _ _ (by simp [hxc])]
        rw [ih t hrest hq]

theorem preserveFields_other (ex new_data : List (String × Val)) (k : String)
    (h1 : k ≠ "agent_id") (h2 : k ≠ "status") :
    lookup (preserveFields ex new_data) k = lookup new_data k := by
  simp only [preserveFields]
  by_cases c1 : (containsKey ex "agent_id" && !truthy (getOpt new_data "agent_id")) = true
  · rw [if_pos c1]
    by_cases c2 : (containsKey ex "status"
        && !truthy (getOpt (setKey new_data "agent_id" (getOpt ex "agent_id")) "status")) = true
    · rw [if_pos c2]
      rw [lookup_setKey_other _ _ _ _ h2, lookup_setKey_other _ _ _ _ h1]
    · rw [if_neg c2]
      rw [lookup_setKey_other _ _ _ _ h1]
  · rw [if_neg c1]
    by_cases c2 : (containsKey ex "status" && !truthy (getOpt new_data "status")) = true
    · rw [if_pos c2]
      rw [lookup_setKey_other _ _ _ _ h2]
    · rw [if_neg c2]

theorem preserveFields_agent (ex new_data : List (String × Val))
    (hck : containsKey ex "agent_id" = true)
    (hfl : truthy (getOpt new_data "agent_id") = false) :
    lookup (preserveFields ex new_data) "agent_id" = lookup ex "agent_id" := by
  simp only [preserveFields]
  have c1 : (containsKey ex "agent_id" && !truthy (getOpt new_data "agent_id")) = true := by
    simp [hck, hfl]
  rw [if_pos c1]
  have hne : ("agent_id" : String) ≠ "status" := by decide
  by_cases c2 : (containsKey ex "status"
      && !truthy (getOpt (setKey new_data "agent_id" (getOpt ex "agent_id")) "status")) = true
  · rw [if_pos c2]
    rw [lookup_setKey_other _ _ _ _ hne, lookup_setKey_self, lookup_getOpt ex _ hck]
  · rw [if_neg c2]
    rw [lookup_setKey_self, lookup_getOpt ex _ hck]

theorem preserveFields_status (ex new_data : List (String × Val))
    (hck : containsKey ex "status" = true)
    (hfl : truthy (getOpt new_data "status") = false) :
    lookup (preserveFields ex new_data) "status" = lookup ex "status" := by
  simp only [preserveFields]
  have hne : ("status" : String) ≠ "agent_id" := by decide
  by_cases c1 : (containsKey ex "agent_id" && !truthy (getOpt new_data "agent_id")) = true
  · rw [if_pos c1]
    have hst : getOpt (setKey new_data "agent_id" (getOpt ex "agent_id")) "status"
        = getOpt new_data "status" := by
      unfold getOpt getD
      rw [lookup_setKey_other _ _ _ _ hne]
    have c2 : (containsKey ex "status"
        && !truthy (getOpt (setKey new_data "agent_id" (getOpt ex "agent_id")) "status")) = true := by
      rw [hst]
      simp [hck, hfl]
    rw [if_pos c2]
    rw [lookup_setKey_self, lookup_getOpt ex _ hck]
  · rw [if_neg c1]
    have c2 : (containsKey ex "status" && !truthy (getOpt new_data "status")) = true := by
      simp [hck, hfl]
    rw [if_pos c2]
    rw [lookup_setKey_self, lookup_getOpt ex _ hck]

theorem matches_iff (es ns : List Val) (ids nids : List String)
    (hid : List.Forall₂ (fun s x => getOpt (asDict s) "step_id" = Val.str x) es ids)
    (hnid : List.Forall₂ (fun s x => getOpt (asDict s) "step_id" = Val.str x) ns nids)
    (hnodup : ids.Nodup) (hneids : ∀ x ∈ ids, x ≠ "")
    (i : Nat) (h2 : i < ids.length) :
    ∀ s ∈ ns, (truthy (getOpt (asDict s) "step_id")
        && (lookupById (buildById es 0 []) (getOpt (asDict s) "step_id") == some i))
      = valBeq (getOpt (asDict s) "step_id") (Val.str (ids.get ⟨i, h2⟩)) := by
  intro s hsmem
  have hlen : ids.length = es.length := forall₂_length _ es ids hid
  have hidg := forall₂_get _ es ids hid
  obtain ⟨⟨j, hj⟩, hs⟩ := List.mem_iff_get.mp hsmem
  have hjn : j < nids.length := by
    rw [forall₂_length _ ns nids hnid]
    exact hj
  have hsid : getOpt (asDict s) "step_id" = Val.str (nids.get ⟨j, hjn⟩) := by
    rw [← hs]
    exact forall₂_get _ ns nids hnid j hj hjn
  set y := nids.get ⟨j, hjn⟩ with hy
  rw [hsid]
  by_cases hmem : y ∈ ids
  · obtain ⟨⟨k, hk⟩, hky⟩ := List.mem_iff_get.mp hmem
    have hyne : y ≠ "" := hneids y hmem
    have hytruthy : truthy (Val.str y) = true := by
      have hie : y.isEmpty = false := by
        cases he : y.isEmpty
        · rfl
        · exact absurd ((String.isEmpty_iff y).mp he) hyne
      simp [truthy, hie]
    have hlook : lookupById (buildById es 0 []) (Val.str y) = some k := by
      have hf := buildById_lookup_fwd es ids 0 [] hlen hidg hnodup hneids k (by omega) hk
      rw [hky] at hf
      simpa using hf
    rw [hlook, hytruthy]
    by_cases hki : k = i
    · subst hki
      have hgy : ids.get ⟨k, h2⟩ = y := by
        rw [← hky]
      rw [hgy]
      simp [valBeq]
    · have hvne : valBeq (Val.str y) (Val.str (ids.get ⟨i, h2⟩)) = false := by
        cases hv : valBeq (Val.str y) (Val.str (ids.get ⟨i, h2⟩))
        · rfl
        · exfalso
          have heq : Val.str (ids.get ⟨i, h2⟩) = Val.str y := (valBeq_str_left y _).mp hv
          have heq2 : ids.get ⟨i, h2⟩ = y := by injection heq
          have heq3 : ids.get ⟨i, h2⟩ = ids.get ⟨k, hk⟩ := by rw [heq2, hky]
          have := (List.Nodup.get_inj_iff hnodup).mp heq3
          simp at this
          exact hki this.symm
      rw [hvne]
      have hko : (some k == some i) = false := by
        simp [hki]
      rw [hko]
      simp
  · have hnone : lookupById (buildById es 0 []) (Val.str y) = none :=
      buildById_none es ids y hlen hidg hmem
    rw [hnone]
    have hvb : valBeq (Val.str y) (Val.str (ids.get ⟨i, h2⟩)) = false := by
      cases hv : valBeq (Val.str y) (Val.str (ids.get ⟨i, h2⟩))
      · rfl
      · exfalso
        have heq : Val.str (ids.get ⟨i, h2⟩) = Val.str y := (valBeq_str_left y _).mp hv
        have heq2 : ids.get ⟨i, h2⟩ = y := by injection heq
        exact hmem (heq2 ▸ List.get_mem ids i h2)
    rw [hvb]
    simp

theorem write_session_shape (ex new_data : List (String × Val)) (es : List Val)
    (hxe : ex.isEmpty = false)
    (hes : asList (pyOr (getOpt ex "steps") (Val.list [])) = es)
    (hesne : es.isEmpty = false) :
    write_session (some ex) new_data
      = setKey (setKey (preserveFields ex new_data) "steps"
            (Val.list (mergeStepsGo (buildById es 0 []) es
              (asList (pyOr (getOpt (preserveFields ex new_data) "steps") (Val.list []))))))
          "total_steps"
          (Val.int (mergeStepsGo (buildById es 0 []) es
            (asList (pyOr (getOpt (preserveFields ex new_data) "steps") (Val.list [])))).length) := by
  simp only [write_session]
  rw [if_neg (by simp [hxe]), hes]
  rw [if_neg (by simp [hesne])]

/-- C7 (amended): `write_session` over an existing persisted session S
preserves only the `agent_id` and `status` top-level fields (and only when
the new value is falsy); every other top-level field takes the new
report's value, even when that value is null. When S has steps, the steps
arrays are merged by `step_id`: each existing step is updated in place by
the unique new step carrying the same `step_id` (when one exists, else
kept unchanged), `total_steps` is refreshed to the merged length, and a
field of an existing step is overwritten only when the new value is
non-null, non-empty-string and non-empty-list. -/
theorem C7_write_session_merge (ex new_data : List (String × Val)) (es ns : List Val)
    (ids nids : List String)
    (hx : ex ≠ [])
    (hes : getOpt ex "steps" = Val.list es)
    (hns : getOpt new_data "steps" = Val.list ns)
    (hesne : es ≠ [])
    (hid : List.Forall₂ (fun s x => getOpt (asDict s) "step_id" = Val.str x) es ids)
    (hnid : List.Forall₂ (fun s x => getOpt (asDict s) "step_id" = Val.str x) ns nids)
    (hnodup : ids.Nodup) (hnnodup : nids.Nodup)
    (hneids : ∀ x ∈ ids, x ≠ "") :
    (containsKey ex "agent_id" = true → truthy (getOpt new_data "agent_id") = false →
      lookup (write_session (some ex) new_data) "agent_id" = lookup ex "agent_id")
    ∧ (containsKey ex "status" = true → truthy (getOpt new_data "status") = false →
      lookup (write_session (some ex) new_data) "status" = lookup ex "status")
    ∧ (∃ merged : List Val,
        lookup (write_session (some ex) new_data) "steps" = some (Val.list merged)
        ∧ lookup (write_session (some ex) new_data) "total_steps"
            = some (Val.int merged.length)
        ∧ ∀ (i : Nat) (h1 : i < es.length) (h2 : i < ids.length),
            merged[i]? = some
              (match ns.find? (fun s =>
                  valBeq (getOpt (asDict s) "step_id") (Val.str (ids.get ⟨i, h2⟩))) with
               | some nstep => Val.dict (mergeStepInto (asDict (es.get ⟨i, h1⟩)) (asDict nstep))
               | none => es.get ⟨i, h1⟩))
    ∧ (∀ (tgt s : List (String × Val)) (k : String), (s.map Prod.fst).Nodup →
        lookup (mergeStepInto tgt s) k =
          match lookup s k with
          | some v => if mergeBlocked v then lookup tgt k else some v
          | none => lookup tgt k) := by
  have hxe : ex.isEmpty = false := by
    cases ex with
    | nil => exact absurd rfl hx
    | cons a b => rfl
  have hesne2 : es.isEmpty = false := by
    cases es with
    | nil => exact absurd rfl hesne
    | cons a b => rfl
  have h_est : asList (pyOr (getOpt ex "steps") (Val.list [])) = es := by
    rw [hes]
    cases es with
    | nil => exact absurd rfl hesne
    | cons a b => simp [pyOr, truthy, asList]
  have hlk_new : lookup new_data "steps" = some (Val.list ns) := by
    have hthis := hns
    unfold getOpt getD at hthis
    cases hl : lookup new_data "steps" with
    | none =>
      rw [hl] at hthis
      exact absurd hthis (fun hcon => Val.noConfusion hcon)
    | some v =>
      rw [hl] at hthis
      simp only [] at hthis
      rw [show v = Val.list ns from hthis]
  have h_nst : asList (pyOr (getOpt (preserveFields ex new_data) "steps") (Val.list [])) = ns := by
    have hg : getOpt (preserveFields ex new_data) "steps" = Val.list ns := by
      unfold getOpt getD
      rw [preserveFields_other ex new_data "steps" (by decide) (by decide), hlk_new]
    rw [hg]
    cases ns with
    | nil => simp [pyOr, truthy, asList]
    | cons a b => simp [pyOr, truthy, asList]
  have hshape := write_session_shape ex new_data es hxe h_est hesne2
  rw [h_nst] at hshape
  refine ⟨?_, ?_, ?_, ?_⟩
  · intro hck hfl
    rw [hshape,
      lookup_setKey_other _ _ _ _ (by decide : ("agent_id" : String) ≠ "total_steps"),
      lookup_setKey_other _ _ _ _ (by decide : ("agent_id" : String) ≠ "steps")]
    exact preserveFields_agent ex new_data hck hfl
  · intro hck hfl
    rw [hshape,
      lookup_setKey_other _ _ _ _ (by decide : ("status" : String) ≠ "total_steps"),
      lookup_setKey_other _ _ _ _ (by decide : ("status" : String) ≠ "steps")]
    exact preserveFields_status ex new_data hck hfl
  · refine ⟨mergeStepsGo (buildById es 0 []) es ns, ?_, ?_, ?_⟩
    · rw [hshape,
        lookup_setKey_other _ _ _ _ (by decide : ("steps" : String) ≠ "total_steps"),
        lookup_setKey_self]
    · rw [hshape, lookup_setKey_self]
    · intro i h1 h2
      have hpos := mergeStepsGo_get (buildById es 0 []) ns es i h1
      have hcong := foldl_congr_members
        (fun s => truthy (getOpt (asDict s) "step_id")
          && (lookupById (buildById es 0 []) (getOpt (asDict s) "step_id") == some i))
        (fun s => valBeq (getOpt (asDict s) "step_id") (Val.str (ids.get ⟨i, h2⟩)))
        (fun acc s => Val.dict (mergeStepInto (asDict acc) (asDict s)))
        ns ((es[i]?).getD Val.null)
        (matches_iff es ns ids nids hid hnid hnodup hneids i h2)
      rw [hcong] at hpos
      have hcount : ns.countP (fun s =>
          valBeq (getOpt (asDict s) "step_id") (Val.str (ids.get ⟨i, h2⟩))) ≤ 1 := by
        rw [countP_forall₂ _ (ids.get ⟨i, h2⟩) ns nids hnid (fun s => rfl)]
        have hc : nids.countP (fun x => x == ids.get ⟨i, h2⟩)
            = nids.count (ids.get ⟨i, h2⟩) := rfl
        rw [hc]
        exact List.nodup_iff_count_le_one.mp hnnodup _
      rw [foldl_single _ _ ns _ hcount] at hpos
      have hinit : ((es[i]?).getD Val.null) = es.get ⟨i, h1⟩ := by
        rw [(List.getElem?_eq_some_getElem_iff es i h1).mpr trivial]
        rfl
      rw [hinit] at hpos
      exact hpos
  · exact fun tgt s k h => mergeStepInto_lookup s tgt k h

/-- C7 (witness): a stored session with `agent_id`, `status` and one step
whose null score placeholder is back-filled by the second write while its
non-null fields survive. -/
theorem C7_write_session_merge_witness :
    (containsKey [("agent_id", Val.str "A"), ("status", Val.str "active"),
        ("steps", Val.list [Val.dict [("step_id", Val.str "s1"), ("relevance_score", Val.null)]])]
        "agent_id" = true →
      truthy (getOpt [("session_id", Val.str "x"),
        ("steps", Val.list [Val.dict [("step_id", Val.str "s1"), ("relevance_score", Val.int 90)]])]
        "agent_id") = false →
      lookup (write_session
          (some [("agent_id", Val.str "A"), ("status", Val.str "active"),
            ("steps", Val.list [Val.dict [("step_id", Val.str "s1"), ("relevance_score", Val.null)]])])
          [("session_id", Val.str "x"),
            ("steps", Val.list [Val.dict [("step_id", Val.str "s1"), ("relevance_score", Val.int 90)]])])
        "agent_id"
        = lookup [("agent_id", Val.str "A"), ("status", Val.str "active"),
            ("steps", Val.list [Val.dict [("step_id", Val.str "s1"), ("relevance_score", Val.null)]])]
          "agent_id")
    ∧ (∃ merged : List Val,
        lookup (write_session
            (some [("agent_id", Val.str "A"), ("status", Val.str "active"),
              ("steps", Val.list [Val.dict [("step_id", Val.str "s1"), ("relevance_score", Val.null)]])])
            [("session_id", Val.str "x"),
              ("steps", Val.list [Val.dict [("step_id", Val.str "s1"), ("relevance_score", Val.int 90)]])])
          "steps" = some (Val.list merged)
        ∧ lookup (write_session
            (some [("agent_id", Val.str "A"), ("status", Val.str "active"),
              ("steps", Val.list [Val.dict [("step_id", Val.str "s1"), ("relevance_score", Val.null)]])])
            [("session_id", Val.str "x"),
              ("steps", Val.list [Val.dict [("step_id", Val.str "s1"), ("relevance_score", Val.int 90)]])])
          "total_steps" = some (Val.int merged.length)
        ∧ ∀ (i : Nat)
            (h1 : i < [Val.dict [("step_id", Val.str "s1"), ("relevance_score", Val.null)]].length)
            (h2 : i < ["s1"].length),
            merged[i]? = some
              (match [Val.dict [("step_id", Val.str "s1"), ("relevance_score", Val.int 90)]].find?
                  (fun s => valBeq (getOpt (asDict s) "step_id")
                    (Val.str (List.get ["s1"] ⟨i, h2⟩))) with
               | some nstep => Val.dict (mergeStepInto
                  (asDict (List.get [Val.dict [("step_id", Val.str "s1"), ("relevance_score", Val.null)]]
                    ⟨i, h1⟩)) (asDict nstep))
               | none => List.get [Val.dict [("step_id", Val.str "s1"), ("relevance_score", Val.null)]]
                  ⟨i, h1⟩)) := by
  have h := C7_write_session_merge
    [("agent_id", Val.str "A"), ("status", Val.str "active"),
      ("steps", Val.list [Val.dict [("step_id", Val.str "s1"), ("relevance_score", Val.null)]])]
    [("session_id", Val.str "x"),
      ("steps", Val.list [Val.dict [("step_id", Val.str "s1"), ("relevance_score", Val.int 90)]])]
    [Val.dict [("step_id", Val.str "s1"), ("relevance_score", Val.null)]]
    [Val.dict [("step_id", Val.str "s1"), ("relevance_score", Val.int 90)]]
    ["s1"] ["s1"]
    (by simp) rfl rfl (by simp)
    (by constructor
        · rfl
        · constructor)
    (by constructor
        · rfl
        · constructor)
    (by simp) (by simp)
    (by intro x hx2; simp at hx2; subst hx2; decide)
  exact ⟨h.1, h.2.2.1⟩

/-! ## Dashboard normalization (`normalize_session`, `norn/routers/sessions.py`) -/

/-- The wall clock and timestamp parser that the stale-session check uses:
`parseTime` models `datetime.fromisoformat(str(x).replace("Z", "+00:00"))`
as seconds since an epoch (`none` on a parse failure), and `now` the current
time in the same scale. -/
structure NormParams where
  parseTime : String → Option Int
  now : Int

/-- Python `v == "lit"` for a string literal. -/
def isStrVal (v : Val) (s : String) : Bool :=
  match v with
  | .str t => t == s
  | _ => false

/-- The display truncation of `tool_result` (`[:300] + "..."`). -/
def truncate300 (s : String) : String :=
  if 300 < s.toList.length then String.mk (s.toList.take 300) ++ "..." else s

/-- One issue, normalized: structured issues keep their fields (with
defaults), anything else is stringified. -/
def normIssue (issue : Val) : Val :=
  match issue with
  | .dict d => Val.dict [
      ("issue_id", getD d "issue_id" (Val.str "")),
      ("issue_type", getD d "issue_type" (Val.str "NONE")),
      ("severity", getD d "severity" (Val.int 5)),
      ("description", getD d "description" (Val.str "")),
      ("recommendation", getD d "recommendation" (Val.str "")),
      ("affected_steps", getD d "affected_steps" (Val.list []))]
  | v => Val.dict [
      ("issue_type", Val.str (pyStr v)),
      ("severity", Val.int 5),
      ("description", Val.str (pyStr v)),
      ("recommendation", Val.str "")]

/-- The `input_str` rendering of a step's `tool_input`: a dict is rendered
`k=repr(v)`-style, anything else is stringified. -/
def input_str (tool_input : Val) : Val :=
  match tool_input with
  | .dict d => Val.str (joinComma (d.map fun kv => kv.1 ++ "=" ++ pyRepr kv.2))
  | v => Val.str (pyStr v)

/-- One step, normalized: the tool input is rendered readably, the result is
stringified and truncated for display, scores pass through. -/
def normStep (stepv : Val) : Val :=
  let step := asDict stepv
  let tool_name := pyOr (getD step "tool_name" (Val.str "")) (getD step "action" (Val.str ""))
  let tool_result := getD step "tool_result" (Val.str "")
  Val.dict [
    ("step_id", getD step "step_id" (Val.str "")),
    ("step_number", getD step "step_number" (Val.int 0)),
    ("timestamp", getD step "timestamp" (Val.str "")),
    ("tool_name", tool_name),
    ("tool_input", input_str (getD step "tool_input" (Val.dict []))),
    ("tool_result", Val.str (truncate300 (pyStr tool_result))),
    ("status", getD step "status" (Val.str "SUCCESS")),
    ("relevance_score", getOpt step "relevance_score"),
    ("security_score", getOpt step "security_score"),
    ("reasoning", getD step "reasoning" (Val.str ""))]

/-- The first status derivation of `normalize_session`: from
`loop_detected` / a `STUCK` quality, else from the end timestamps. -/
def baseStatus (session : List (String × Val)) : String :=
  if truthy (getOpt session "loop_detected")
      || isStrVal (getD session "overall_quality" (Val.str "GOOD")) "STUCK" then
    "terminated"
  else if truthy (pyOr (getOpt session "ended_at") (getOpt session "end_time")) then
    "completed"
  else "active"

/-- The explicit-status override: an explicit `active`/`terminated` wins. -/
def overrideStatus (session : List (String × Val)) : String :=
  let explicit_status := getOpt session "status"
  if truthy explicit_status && isStrVal explicit_status "active" then "active"
  else if truthy explicit_status && isStrVal explicit_status "terminated" then "terminated"
  else baseStatus session

/-- The status/quality derivation of `normalize_session`: derive, override,
then mark stale active sessions (started over 5 minutes ago with no
`ended_at`) as `terminated` with quality `FAILED`. -/
def deriveStatus (p : NormParams) (session : List (String × Val)) : String × Val :=
  let overall_quality := getD session "overall_quality" (Val.str "GOOD")
  let status2 := overrideStatus session
  if status2 == "active" then
    let started_at := pyOr (getOpt session "started_at") (getOpt session "start_time")
    if truthy started_at then
      match p.parseTime (pyStr started_at) with
      | some t =>
        if 300 < p.now - t ∧ ¬ truthy (getOpt session "ended_at") = true then
          ("terminated", Val.str "FAILED")
        else (status2, overall_quality)
      | none => (status2, overall_quality)
    else (status2, overall_quality)
  else (status2, overall_quality)

/-- The `task_str` coercion of a session's `task`: a dict contributes its
`description`, anything else is stringified. -/
def task_str (task : Val) : Val :=
  match task with
  | .dict d => getD d "description" (Val.str "")
  | t => Val.str (pyStr t)

/-- `normalize_session` (`norn/routers/sessions.py`): coerce a stored
session to the single canonical shape the dashboard consumes. `issues` and
`steps` are modelled as lists (Python would iterate or crash on other
types). -/
def normalize_session (p : NormParams) (session : List (String × Val)) :
    List (String × Val) :=
  let normalized_issues := (asList (getD session "issues" (Val.list []))).map normIssue
  let normalized_steps := (asList (getD session "steps" (Val.list []))).map normStep
  let sq := deriveStatus p session
  [("session_id", getD session "session_id" (Val.str "")),
   ("agent_name", getD session "agent_name" (Val.str "Unknown")),
   ("model", getOpt session "model"),
   ("task", task_str (getD session "task" (Val.str ""))),
   ("start_time", pyOr (getOpt session "started_at") (getD session "start_time" (Val.str ""))),
   ("end_time", pyOr (getOpt session "ended_at") (getOpt session "end_time")),
   ("status", Val.str sq.1),
   ("total_steps", getD session "total_steps" (Val.int 0)),
   ("overall_quality", sq.2),
   ("efficiency_score", getOpt session "efficiency_score"),
   ("security_score", getOpt session "security_score"),
   ("issues", Val.list normalized_issues),
   ("steps", Val.list normalized_steps),
   ("ai_evaluation", getOpt session "ai_evaluation"),
   ("tool_analysis", getD session "tool_analysis" (Val.list [])),
   ("decision_observations", getD session "decision_observations" (Val.list [])),
   ("efficiency_explanation", getD session "efficiency_explanation" (Val.str "")),
   ("recommendations", getD session "recommendations" (Val.list [])),
   ("task_completion", getD session "task_completion" (Val.bool false)),
   ("loop_detected", getD session "loop_detected" (Val.bool false)),
   ("security_breach_detected", getD session "security_breach_detected" (Val.bool false)),
   ("total_execution_time_ms", getD session "total_execution_time_ms" (Val.int 0))]

/-- A parser/clock for concrete examples: nothing parses. -/
def noClock : NormParams := ⟨fun _ => none, 0⟩

/-- C9 (counterexample): normalization is not idempotent on a session whose
issues are plain strings — the first pass produces an issue object without
`issue_id`/`affected_steps`, the second pass adds them. -/
theorem C9_counterexample :
    containsKey
        (asDict ((asList (getD (normalize_session noClock
            (normalize_session noClock [("issues", Val.list [Val.str "loop"])]))
          "issues" (Val.list []))).headD Val.null))
        "issue_id" = true
    ∧ containsKey
        (asDict ((asList (getD (normalize_session noClock [("issues", Val.list [Val.str "loop"])])
          "issues" (Val.list []))).headD Val.null))
        "issue_id" = false
    ∧ normalize_session noClock
          (normalize_session noClock [("issues", Val.list [Val.str "loop"])])
        ≠ normalize_session noClock [("issues", Val.list [Val.str "loop"])] := by
  refine ⟨by decide, by decide, ?_⟩
  intro h
  have hc := congrArg (fun d => containsKey
      (asDict ((asList (getD d "issues" (Val.list []))).headD Val.null)) "issue_id") h
  simp only [] at hc
  rw [show containsKey
      (asDict ((asList (getD (normalize_session noClock
          (normalize_session noClock [("issues", Val.list [Val.str "loop"])]))
        "issues" (Val.list []))).headD Val.null)) "issue_id" = true from by decide] at hc
  rw [show containsKey
      (asDict ((asList (getD (normalize_session noClock [("issues", Val.list [Val.str "loop"])])
        "issues" (Val.list []))).headD Val.null)) "issue_id" = false from by decide] at hc
  exact Bool.noConfusion hc

/-! ### Idempotence of `normalize_session` on well-shaped sessions (C9) -/

theorem pyOr_null (b : Val) : pyOr Val.null b = b := rfl

theorem truthy_pyOr (a b : Val) : truthy (pyOr a b) = (truthy a || truthy b) := by
  by_cases h : truthy a = true
  · unfold pyOr; rw [if_pos h, h, Bool.true_or]
  · have h' : truthy a = false := by simpa using h
    unfold pyOr; rw [if_neg h, h', Bool.false_or]

theorem truthy_getD_falsy (s : List (String × Val)) (k : String) (d : Val)
    (hd : truthy d = false) : truthy (getD s k d) = truthy (getOpt s k) := by
  unfold getOpt getD
  cases hl : lookup s k
  · show truthy d = truthy Val.null
    rw [hd]; rfl
  · rfl

theorem getD_eq_getOpt_of_truthy (s : List (String × Val)) (k : String) (d : Val)
    (h : truthy (getOpt s k) = true) : getD s k d = getOpt s k := by
  unfold getOpt getD at h ⊢
  cases hl : lookup s k <;> simp [hl, truthy] at h ⊢

theorem pyOr_pyOr_str (t a : String) :
    pyOr (pyOr (Val.str t) (Val.str a)) (Val.str "") = pyOr (Val.str t) (Val.str a) := by
  by_cases h : truthy (Val.str t) = true
  · have hin : pyOr (Val.str t) (Val.str a) = Val.str t := by unfold pyOr; rw [if_pos h]
    rw [hin]; unfold pyOr; rw [if_pos h]
  · have hin : pyOr (Val.str t) (Val.str a) = Val.str a := by unfold pyOr; rw [if_neg h]
    rw [hin]
    by_cases h2 : truthy (Val.str a) = true
    · unfold pyOr; rw [if_pos h2]
    · have h3 : truthy (Val.str a) = false := by simpa using h2
      have h4 : a.isEmpty = true := by simpa [truthy] using h3
      have h5 : a = "" := (String.isEmpty_iff a).mp h4
      subst h5; rfl

theorem truncate300_idem (s : String) : truncate300 (truncate300 s) = truncate300 s := by
  unfold truncate300
  by_cases h : 300 < s.toList.length
  · rw [if_pos h]
    have hlen : (s.toList.take 300).length = 300 := by
      rw [List.length_take]; omega
    have htl : (String.mk (s.toList.take 300) ++ "...").toList
        = s.toList.take 300 ++ ['.', '.', '.'] := rfl
    rw [htl]
    rw [if_pos (by rw [List.length_append, hlen]; simp)]
    have htake := List.take_left (s.toList.take 300) (['.', '.', '.'] : List Char)
    rw [hlen] at htake
    rw [htake]
  · rw [if_neg h, if_neg h]

theorem normIssue_idem (d : List (String × Val)) :
    normIssue (normIssue (Val.dict d)) = normIssue (Val.dict d) := rfl

theorem input_str_idem (w : Val) : input_str (input_str w) = input_str w := by
  cases w <;> rfl

theorem normStep_idem (v : Val) (t a : String)
    (ht : getD (asDict v) "tool_name" (Val.str "") = Val.str t)
    (ha : getD (asDict v) "action" (Val.str "") = Val.str a) :
    normStep (normStep v) = normStep v := by
  have h1 : normStep v = Val.dict [
      ("step_id", getD (asDict v) "step_id" (Val.str "")),
      ("step_number", getD (asDict v) "step_number" (Val.int 0)),
      ("timestamp", getD (asDict v) "timestamp" (Val.str "")),
      ("tool_name", pyOr (getD (asDict v) "tool_name" (Val.str ""))
          (getD (asDict v) "action" (Val.str ""))),
      ("tool_input", input_str (getD (asDict v) "tool_input" (Val.dict []))),
      ("tool_result", Val.str (truncate300 (pyStr (getD (asDict v) "tool_result" (Val.str ""))))),
      ("status", getD (asDict v) "status" (Val.str "SUCCESS")),
      ("relevance_score", getOpt (asDict v) "relevance_score"),
      ("security_score", getOpt (asDict v) "security_score"),
      ("reasoning", getD (asDict v) "reasoning" (Val.str ""))] := rfl
  rw [h1, ht, ha]
  simp +decide [normStep, asDict, getD, getOpt, lookup, pyStr, pyOr_pyOr_str,
    input_str_idem, truncate300_idem]

theorem overrideStatus_cases (s : List (String × Val)) :
    overrideStatus s = "active" ∨ overrideStatus s = "terminated"
      ∨ overrideStatus s = "completed" := by
  unfold overrideStatus
  by_cases h1 : (truthy (getOpt s "status") && isStrVal (getOpt s "status") "active") = true
  · rw [if_pos h1]; left; rfl
  · rw [if_neg h1]
    by_cases h2 : (truthy (getOpt s "status")
        && isStrVal (getOpt s "status") "terminated") = true
    · rw [if_pos h2]; right; left; rfl
    · rw [if_neg h2]
      unfold baseStatus
      by_cases h3 : (truthy (getOpt s "loop_detected")
          || isStrVal (getD s "overall_quality" (Val.str "GOOD")) "STUCK") = true
      · rw [if_pos h3]; right; left; rfl
      · rw [if_neg h3]
        by_cases h4 : truthy (pyOr (getOpt s "ended_at") (getOpt s "end_time")) = true
        · rw [if_pos h4]; right; right; rfl
        · rw [if_neg h4]; left; rfl

theorem deriveStatus_normalize (p : NormParams) (s : List (String × Val))
    (hstat : ¬ (isStrVal (getOpt s "status") "active" = true
        ∧ truthy (getOpt s "ended_at") = true)) :
    deriveStatus p (normalize_session p s) = deriveStatus p s := by
  have fst1 : getOpt (normalize_session p s) "status" = Val.str (deriveStatus p s).1 := rfl
  have fq : getD (normalize_session p s) "overall_quality" (Val.str "GOOD")
      = (deriveStatus p s).2 := rfl
  have floop : getOpt (normalize_session p s) "loop_detected"
      = getD s "loop_detected" (Val.bool false) := rfl
  have fendat : getOpt (normalize_session p s) "ended_at" = Val.null := rfl
  have fend : getOpt (normalize_session p s) "end_time"
      = pyOr (getOpt s "ended_at") (getOpt s "end_time") := rfl
  have fstartat : getOpt (normalize_session p s) "started_at" = Val.null := rfl
  have fstart : getOpt (normalize_session p s) "start_time"
      = pyOr (getOpt s "started_at") (getD s "start_time" (Val.str "")) := rfl
  by_cases hA : overrideStatus s = "active"
  · by_cases hstarted : truthy (pyOr (getOpt s "started_at") (getOpt s "start_time")) = true
    · have hsteq : pyOr (getOpt s "started_at") (getD s "start_time" (Val.str ""))
          = pyOr (getOpt s "started_at") (getOpt s "start_time") := by
        by_cases ha : truthy (getOpt s "started_at") = true
        · unfold pyOr; rw [if_pos ha, if_pos ha]
        · have ha' : truthy (getOpt s "started_at") = false := by simpa using ha
          have hb : truthy (getOpt s "start_time") = true := by
            rw [truthy_pyOr, ha', Bool.false_or] at hstarted
            exact hstarted
          rw [getD_eq_getOpt_of_truthy s "start_time" (Val.str "") hb]
      have hst2 : pyOr (getOpt (normalize_session p s) "started_at")
            (getOpt (normalize_session p s) "start_time")
          = pyOr (getOpt s "started_at") (getOpt s "start_time") := by
        rw [fstartat, fstart, pyOr_null, hsteq]
      rcases hparse : p.parseTime (pyStr (pyOr (getOpt s "started_at") (getOpt s "start_time")))
        with _ | t0
      · have hds : deriveStatus p s
            = ("active", getD s "overall_quality" (Val.str "GOOD")) := by
          simp only [deriveStatus, hparse]
          rw [if_pos (by simp [hA]), if_pos hstarted, hA]
        have fst3 : getOpt (normalize_session p s) "status" = Val.str "active" := by
          rw [fst1, hds]
        have hov : overrideStatus (normalize_session p s) = "active" := by
          simp only [overrideStatus, fst3]
          rw [if_pos (by decide)]
        rw [hds]
        simp only [deriveStatus, hst2, hparse]
        rw [if_pos (by rw [hov]; decide), if_pos hstarted, hov, fq, hds]
      · by_cases h300 : 300 < p.now - t0
        · by_cases hend : truthy (getOpt s "ended_at") = true
          · exfalso
            have hiv : isStrVal (getOpt s "status") "active" = false := by
              cases hx : isStrVal (getOpt s "status") "active"
              · rfl
              · exact absurd ⟨hx, hend⟩ hstat
            have hbase : baseStatus s = "active" := by
              unfold overrideStatus at hA
              rw [if_neg (by simp [hiv])] at hA
              by_cases h2 : (truthy (getOpt s "status")
                  && isStrVal (getOpt s "status") "terminated") = true
              · rw [if_pos h2] at hA; exact absurd hA (by decide)
              · rw [if_neg h2] at hA; exact hA
            unfold baseStatus at hbase
            by_cases h3 : (truthy (getOpt s "loop_detected")
                || isStrVal (getD s "overall_quality" (Val.str "GOOD")) "STUCK") = true
            · rw [if_pos h3] at hbase; exact absurd hbase (by decide)
            · rw [if_neg h3] at hbase
              by_cases h4 : truthy (pyOr (getOpt s "ended_at") (getOpt s "end_time")) = true
              · rw [if_pos h4] at hbase; exact absurd hbase (by decide)
              · exact h4 (by rw [truthy_pyOr, hend, Bool.true_or])
          · have hendF : truthy (getOpt s "ended_at") = false := by simpa using hend
            have hds : deriveStatus p s = ("terminated", Val.str "FAILED") := by
              simp only [deriveStatus, hparse]
              rw [if_pos (by simp [hA]), if_pos hstarted,
                if_pos ⟨h300, by simp [hendF]⟩]
            have fst3 : getOpt (normalize_session p s) "status" = Val.str "terminated" := by
              rw [fst1, hds]
            have hov : overrideStatus (normalize_session p s) = "terminated" := by
              simp only [overrideStatus, fst3]
              rw [if_neg (by decide), if_pos (by decide)]
            rw [hds]
            simp only [deriveStatus]
            rw [if_neg (by rw [hov]; decide), hov, fq, hds]
        · have hds : deriveStatus p s
              = ("active", getD s "overall_quality" (Val.str "GOOD")) := by
            simp only [deriveStatus, hparse]
            rw [if_pos (by simp [hA]), if_pos hstarted,
              if_neg (fun hc => h300 hc.1), hA]
          have fst3 : getOpt (normalize_session p s) "status" = Val.str "active" := by
            rw [fst1, hds]
          have hov : overrideStatus (normalize_session p s) = "active" := by
            simp only [overrideStatus, fst3]
            rw [if_pos (by decide)]
          rw [hds]
          simp only [deriveStatus, hst2, hparse]
          rw [if_pos (by rw [hov]; decide), if_pos hstarted,
            if_neg (fun hc => h300 hc.1), hov, fq, hds]
    · have hstF : truthy (pyOr (getOpt s "started_at") (getOpt s "start_time")) = false := by
        simpa using hstarted
      have hds : deriveStatus p s
          = ("active", getD s "overall_quality" (Val.str "GOOD")) := by
        simp only [deriveStatus]
        rw [if_pos (by simp [hA]), if_neg (by simp [hstF]), hA]
      have hst2F : truthy (pyOr (getOpt (normalize_session p s) "started_at")
          (getOpt (normalize_session p s) "start_time")) = false := by
        rw [fstartat, fstart, pyOr_null]
        rw [truthy_pyOr] at hstF ⊢
        rw [truthy_getD_falsy s "start_time" (Val.str "") rfl]
        exact hstF
      have fst3 : getOpt (normalize_session p s) "status" = Val.str "active" := by
        rw [fst1, hds]
      have hov : overrideStatus (normalize_session p s) = "active" := by
        simp only [overrideStatus, fst3]
        rw [if_pos (by decide)]
      rw [hds]
      simp only [deriveStatus]
      rw [if_pos (by rw [hov]; decide), if_neg (by simp [hst2F]), hov, fq, hds]
  · have hds : deriveStatus p s
        = (overrideStatus s, getD s "overall_quality" (Val.str "GOOD")) := by
      simp only [deriveStatus]
      rw [if_neg (by simp [hA])]
    rcases overrideStatus_cases s with h | hT | hC
    · exact absurd h hA
    · have fst3 : getOpt (normalize_session p s) "status" = Val.str "terminated" := by
        rw [fst1, hds, hT]
      have hov : overrideStatus (normalize_session p s) = "terminated" := by
        simp only [overrideStatus, fst3]
        rw [if_neg (by decide), if_pos (by decide)]
      rw [hds]
      simp only [deriveStatus]
      rw [if_neg (by rw [hov]; decide), hov, hT, fq, hds]
    · have hbase : baseStatus s = "completed" := by
        unfold overrideStatus at hC
        by_cases h1 : (truthy (getOpt s "status") && isStrVal (getOpt s "status") "active") = true
        · rw [if_pos h1] at hC; exact absurd hC (by decide)
        · rw [if_neg h1] at hC
          by_cases h2 : (truthy (getOpt s "status")
              && isStrVal (getOpt s "status") "terminated") = true
          · rw [if_pos h2] at hC; exact absurd hC (by decide)
          · rw [if_neg h2] at hC; exact hC
      have hg1 : (truthy (getOpt s "loop_detected")
          || isStrVal (getD s "overall_quality" (Val.str "GOOD")) "STUCK") = false := by
        by_cases h3 : (truthy (getOpt s "loop_detected")
            || isStrVal (getD s "overall_quality" (Val.str "GOOD")) "STUCK") = true
        · exfalso; unfold baseStatus at hbase; rw [if_pos h3] at hbase
          exact absurd hbase (by decide)
        · simpa using h3
      have hg2 : truthy (pyOr (getOpt s "ended_at") (getOpt s "end_time")) = true := by
        by_cases h4 : truthy (pyOr (getOpt s "ended_at") (getOpt s "end_time")) = true
        · exact h4
        · exfalso; unfold baseStatus at hbase
          rw [if_neg (by simp [hg1]), if_neg h4] at hbase
          exact absurd hbase (by decide)
      have fst3 : getOpt (normalize_session p s) "status" = Val.str "completed" := by
        rw [fst1, hds, hC]
      have hov : overrideStatus (normalize_session p s) = "completed" := by
        simp only [overrideStatus, fst3]
        rw [if_neg (by decide), if_neg (by decide)]
        simp only [baseStatus, floop, fq, hds, fendat, fend, pyOr_null]
        have hg1n : ¬ ((truthy (getD s "loop_detected" (Val.bool false))
            || isStrVal (getD s "overall_quality" (Val.str "GOOD")) "STUCK") = true) := by
          rw [truthy_getD_falsy s "loop_detected" (Val.bool false) rfl]
          simp [hg1]
        rw [if_neg hg1n, if_pos hg2]
      rw [hds]
      simp only [deriveStatus]
      rw [if_neg (by rw [hov]; decide), hov, hC, fq, hds]

/-- C9 (amended): `normalize_session` is idempotent on every session whose
issues are dict objects, whose steps carry string `tool_name`/`action`
values, whose dict-shaped task has a string `description`, and whose
explicit `active` status does not coexist with a truthy `ended_at` — the
shapes the engine itself persists. (String issues and the explicit-active /
`ended_at` stale interaction each break idempotence, see the
counterexample.) -/
theorem C9_normalize_idempotent (p : NormParams) (s : List (String × Val))
    (hiss : ∀ v ∈ asList (getD s "issues" (Val.list [])), ∃ d, v = Val.dict d)
    (hstp : ∀ v ∈ asList (getD s "steps" (Val.list [])),
      (∃ t, getD (asDict v) "tool_name" (Val.str "") = Val.str t)
        ∧ ∃ a, getD (asDict v) "action" (Val.str "") = Val.str a)
    (htask : ∀ d, getD s "task" (Val.str "") = Val.dict d →
      ∃ t, getD d "description" (Val.str "") = Val.str t)
    (hstat : ¬ (isStrVal (getOpt s "status") "active" = true
        ∧ truthy (getOpt s "ended_at") = true)) :
    normalize_session p (normalize_session p s) = normalize_session p s := by
  have hT : ∃ x, getD (normalize_session p s) "task" (Val.str "") = Val.str x := by
    have e1 : getD (normalize_session p s) "task" (Val.str "")
        = task_str (getD s "task" (Val.str "")) := rfl
    rw [e1]
    rcases hv : getD s "task" (Val.str "") with _ | st | n | b | l | d
    · exact ⟨_, rfl⟩
    · exact ⟨_, rfl⟩
    · exact ⟨_, rfl⟩
    · exact ⟨_, rfl⟩
    · exact ⟨_, rfl⟩
    · exact htask d hv
  obtain ⟨tx, hT⟩ := hT
  have htfix : task_str (getD (normalize_session p s) "task" (Val.str ""))
      = getD (normalize_session p s) "task" (Val.str "") := by
    rw [hT]; rfl
  have hISS : List.map normIssue (asList (getD (normalize_session p s) "issues" (Val.list [])))
      = asList (getD (normalize_session p s) "issues" (Val.list [])) := by
    show List.map normIssue (List.map normIssue (asList (getD s "issues" (Val.list []))))
        = List.map normIssue (asList (getD s "issues" (Val.list [])))
    rw [List.map_map]
    apply List.map_congr_left
    intro v hv
    obtain ⟨d, rfl⟩ := hiss v hv
    exact normIssue_idem d
  have hSTP : List.map normStep (asList (getD (normalize_session p s) "steps" (Val.list [])))
      = asList (getD (normalize_session p s) "steps" (Val.list [])) := by
    show List.map normStep (List.map normStep (asList (getD s "steps" (Val.list []))))
        = List.map normStep (asList (getD s "steps" (Val.list [])))
    rw [List.map_map]
    apply List.map_congr_left
    intro v hv
    obtain ⟨⟨t, ht⟩, ⟨a, ha⟩⟩ := hstp v hv
    exact normStep_idem v t a ht ha
  have lhs_eq : normalize_session p (normalize_session p s) =
    [("session_id", getD (normalize_session p s) "session_id" (Val.str "")),
     ("agent_name", getD (normalize_session p s) "agent_name" (Val.str "Unknown")),
     ("model", getOpt (normalize_session p s) "model"),
     ("task", task_str (getD (normalize_session p s) "task" (Val.str ""))),
     ("start_time", pyOr (getOpt (normalize_session p s) "started_at")
        (getD (normalize_session p s) "start_time" (Val.str ""))),
     ("end_time", pyOr (getOpt (normalize_session p s) "ended_at")
        (getOpt (normalize_session p s) "end_time")),
     ("status", Val.str (deriveStatus p (normalize_session p s)).1),
     ("total_steps", getD (normalize_session p s) "total_steps" (Val.int 0)),
     ("overall_quality", (deriveStatus p (normalize_session p s)).2),
     ("efficiency_score", getOpt (normalize_session p s) "efficiency_score"),
     ("security_score", getOpt (normalize_session p s) "security_score"),
     ("issues", Val.list (List.map normIssue
        (asList (getD (normalize_session p s) "issues" (Val.list []))))),
     ("steps", Val.list (List.map normStep
        (asList (getD (normalize_session p s) "steps" (Val.list []))))),
     ("ai_evaluation", getOpt (normalize_session p s) "ai_evaluation"),
     ("tool_analysis", getD (normalize_session p s) "tool_analysis" (Val.list [])),
     ("decision_observations", getD (normalize_session p s) "decision_observations" (Val.list [])),
     ("efficiency_explanation", getD (normalize_session p s) "efficiency_explanation" (Val.str "")),
     ("recommendations", getD (normalize_session p s) "recommendations" (Val.list [])),
     ("task_completion", getD (normalize_session p s) "task_completion" (Val.bool false)),
     ("loop_detected", getD (normalize_session p s) "loop_detected" (Val.bool false)),
     ("security_breach_detected",
        getD (normalize_session p s) "security_breach_detected" (Val.bool false)),
     ("total_execution_time_ms",
        getD (normalize_session p s) "total_execution_time_ms" (Val.int 0))] := rfl
  rw [lhs_eq, htfix, hISS, hSTP, deriveStatus_normalize p s hstat]
  rfl

/-- A small well-shaped session report of the kind the engine persists. -/
def sampleSession : List (String × Val) :=
  [("status", Val.str "completed"),
   ("task", Val.str "demo"),
   ("issues", Val.list [Val.dict [("issue_type", Val.str "INFINITE_LOOP"),
      ("severity", Val.int 9)]]),
   ("steps", Val.list [Val.dict [("tool_name", Val.str "read"),
      ("tool_input", Val.dict [])]])]

/-- Witness for C9: the idempotence theorem applied at a concrete
well-shaped session. -/
theorem C9_normalize_idempotent_witness :
    normalize_session noClock (normalize_session noClock sampleSession)
      = normalize_session noClock sampleSession :=
  C9_normalize_idempotent noClock sampleSession
    (by intro v hv
        have hv2 : v ∈ [Val.dict [("issue_type", Val.str "INFINITE_LOOP"),
            ("severity", Val.int 9)]] := hv
        rw [List.mem_singleton] at hv2
        exact ⟨_, hv2⟩)
    (by intro v hv
        have hv2 : v ∈ [Val.dict [("tool_name", Val.str "read"),
            ("tool_input", Val.dict [])]] := hv
        rw [List.mem_singleton] at hv2
        subst hv2
        exact ⟨⟨"read", rfl⟩, ⟨"", rfl⟩⟩)
    (by intro d hd
        exact Val.noConfusion hd)
    (by decide)

end Norn
